import Mathlib

/-!
Shallow embedding of the Participation and Reward Ledger of the
PROJECT-GWALK backend (Hono + Prisma route handlers), together with
proofs about its budget, exclusivity and cascade behaviour.

The embedding models the relational store as lists of rows and each
route handler as a total function from a database state (plus the
request parameters) to a response and a successor state.  Prisma
`findFirst` becomes `List.find?`, `deleteMany` becomes `List.filter`
with the negated predicate, `aggregate _sum` becomes a sum over a
filtered list, and a `prisma.$transaction` that throws is modelled by
returning the original (rolled-back) state together with the error
response.  JavaScript `Map` insertion-order semantics are modelled by
association lists (`jsMapSet` / `jsMapGet`).
-/

namespace GWalk

/-- Participant role (`eventGroup` column). -/
inductive EventGroup where
  | ORGANIZER
  | PRESENTER
  | COMMITTEE
  | GUEST
deriving DecidableEq

instance : BEq EventGroup := ⟨fun a b => decide (a = b)⟩

@[simp] theorem EventGroup.beq_iff {a b : EventGroup} : (a == b) = true ↔ a = b := by
  simp [BEq.beq]

instance : LawfulBEq EventGroup where
  rfl := by intro a; simp [BEq.beq]
  eq_of_beq := by intro a b h; simpa [BEq.beq] using h

/-- Row of the `Event` table (the fields the ledger reads). -/
structure EventRec where
  id : String
  startView : Option Int
  endView : Option Int
  virtualRewardGuest : Option Int
  virtualRewardCommittee : Option Int
  vrTeamCapEnabled : Bool
  vrTeamCapGuest : Option Int
  vrTeamCapCommittee : Option Int
deriving DecidableEq

/-- Row of the `EventParticipant` table. -/
structure Participant where
  id : String
  eventId : String
  userId : String
  eventGroup : EventGroup
  isLeader : Bool
  teamId : Option String
  virtualReward : Int
deriving DecidableEq

/-- Row of the `Team` table (the fields the ledger reads). -/
structure Team where
  id : String
  eventId : String
deriving DecidableEq

/-- Row of the `TeamReward` table: flat VR given by `giverId` to `teamId`. -/
structure TeamReward where
  eventId : String
  teamId : String
  giverId : String
  reward : Int
deriving DecidableEq

/-- Row of the `TeamRewardCategory` table: categorized VR given by `giverId`. -/
structure TeamRewardCategory where
  eventId : String
  teamId : String
  giverId : String
  categoryId : String
  amount : Int
deriving DecidableEq

/-- Row of the `VrCategory` table. -/
structure VrCategory where
  id : String
  eventId : String
deriving DecidableEq

/-- Row of the `SpecialReward` table. -/
structure SpecialReward where
  id : String
  eventId : String
  name : String
deriving DecidableEq

/-- Row of the `SpecialRewardVote` table. -/
structure SpecialRewardVote where
  rewardId : String
  committeeId : String
  teamId : String
deriving DecidableEq

/-- The database state seen by the ledger operations. -/
structure DB where
  events : List EventRec
  participants : List Participant
  teams : List Team
  vrCategories : List VrCategory
  rewards : List TeamReward
  catRewards : List TeamRewardCategory
  specialRewards : List SpecialReward
  votes : List SpecialRewardVote
deriving DecidableEq

/-- Sum of the `reward` column over a list of flat reward rows
(`prisma.teamReward.aggregate _sum.reward`, with `null` for the empty
set collapsed to `0` by the handlers' `|| 0`). -/
def sumRewards (l : List TeamReward) : Int :=
  (l.map TeamReward.reward).sum

/-- Sum of the `amount` column over a list of category reward rows. -/
def sumCatRewards (l : List TeamRewardCategory) : Int :=
  (l.map TeamRewardCategory.amount).sum

/-- The event active-window gate used by every action handler:
`!startView || !endView || now < startView || now > endView` means the
event is NOT active. -/
def eventActive (e : EventRec) (now : Int) : Bool :=
  match e.startView, e.endView with
  | some s, some en => decide (s ≤ now) && decide (now ≤ en)
  | _, _ => false

/-! ## JavaScript Map semantics

`eventsAction.ts` normalizes the `categories` payload with a
`reduce` into a `new Map()`.  A JS `Map` preserves insertion order:
`set` on a present key updates in place, on an absent key appends. -/

/-- JS `acc.get(k) || 0` on an association list. -/
def jsMapGet (acc : List (String × Int)) (k : String) : Int :=
  match acc.find? (fun p => p.1 == k) with
  | some p => p.2
  | none => 0

/-- JS `acc.set(k, v)` on an association list: update in place when the
key is present, append otherwise. -/
def jsMapSet (acc : List (String × Int)) (k : String) (v : Int) : List (String × Int) :=
  if acc.any (fun p => p.1 == k) then
    acc.map (fun p => if p.1 == k then (k, v) else p)
  else
    acc ++ [(k, v)]

/-- One entry of the `categories` array of the give-vr payload.  The
amount is `Option ℚ` because the handler defends against a missing or
non-numeric `amount` (`typeof r.amount === "number" ? r.amount : 0`)
and floors fractional values. -/
structure CatEntry where
  categoryId : String
  amount : Option ℚ
deriving DecidableEq

/-- The clamped integer amount of one entry:
`Math.max(0, Math.floor(typeof r.amount === "number" ? r.amount : 0))`. -/
def clampAmount (a : Option ℚ) : Int :=
  max 0 ⌊a.getD 0⌋

/-- The category-normalization `reduce` of the give-vr transaction
(`eventsAction.ts` lines 73-85): trim the category id, drop entries
whose trimmed id is empty, floor and clamp the amount, and merge
duplicate ids by summing into a JS `Map`. -/
def normalizeCategories (cats : List CatEntry) : List (String × Int) :=
  cats.foldl
    (fun acc r =>
      let categoryId := r.categoryId.trim
      let nextAmount := clampAmount r.amount
      if categoryId = "" then acc
      else jsMapSet acc categoryId (jsMapGet acc categoryId + nextAmount))
    []

/-- The rows actually written in categorized mode: entries of the
normalized map with a positive amount (`.filter(([, amt]) => amt > 0)`). -/
def categoryRows (cats : List CatEntry) : List (String × Int) :=
  (normalizeCategories cats).filter (fun p => decide (0 < p.2))

/-! ## give-vr (PUT /:eventId/give-vr, eventsAction.ts lines 21-248) -/

/-- Request body of give-vr after `zValidator` (the schema demands
exactly one of `amount` / `categories`; the handler re-checks). -/
structure GiveVrBody where
  projectId : String
  amount : Option ℚ
  categories : Option (List CatEntry)
deriving DecidableEq

/-- JSON response of give-vr / reset-vr shaped routes: message and
HTTP status, plus the optional numeric fields the route includes. -/
structure VrResp where
  message : String
  status : Nat
  totalLimit : Option Int
  totalUsed : Option Int
  newBalance : Option Int
deriving DecidableEq

/-- Error response carrying only a message. -/
def VrResp.err (msg : String) (status : Nat) : VrResp :=
  { message := msg, status := status, totalLimit := none, totalUsed := none,
    newBalance := none }

/-- Flat VR already given by `giverId` to other teams of the event
(`teamReward.aggregate` with `teamId: { not: projectId }`). -/
def othersFlat (db : DB) (eventId giverId projectId : String) : Int :=
  sumRewards (db.rewards.filter
    (fun r => r.eventId == eventId && r.giverId == giverId && !(r.teamId == projectId)))

/-- Categorized VR already given by `giverId` to other teams of the event. -/
def othersCat (db : DB) (eventId giverId projectId : String) : Int :=
  sumCatRewards (db.catRewards.filter
    (fun r => r.eventId == eventId && r.giverId == giverId && !(r.teamId == projectId)))

/-- Categorized VR already given by `giverId` to this team. -/
def thisTeamCat (db : DB) (eventId giverId projectId : String) : Int :=
  sumCatRewards (db.catRewards.filter
    (fun r => r.eventId == eventId && r.teamId == projectId && r.giverId == giverId))

/-- All flat VR given by `giverId` in the event. -/
def usedFlat (db : DB) (eventId giverId : String) : Int :=
  sumRewards (db.rewards.filter (fun r => r.eventId == eventId && r.giverId == giverId))

/-- All categorized VR given by `giverId` in the event. -/
def usedCat (db : DB) (eventId giverId : String) : Int :=
  sumCatRewards (db.catRewards.filter (fun r => r.eventId == eventId && r.giverId == giverId))

/-- Update the first flat reward row matching the key (`teamReward.update`
by the id of the row found by `findFirst`). -/
def updateFirstReward (l : List TeamReward) (key : TeamReward → Bool) (amt : Int) :
    List TeamReward :=
  match l with
  | [] => []
  | r :: rs =>
    if key r then { r with reward := amt } :: rs
    else r :: updateFirstReward rs key amt

/-- Remove the first flat reward row matching the key (`teamReward.delete`
by the id of the row found by `findFirst`). -/
def eraseFirstReward (l : List TeamReward) (key : TeamReward → Bool) : List TeamReward :=
  match l with
  | [] => []
  | r :: rs => if key r then rs else r :: eraseFirstReward rs key

/-- Key of a flat reward row for (event, team, giver). -/
def rewardKey (eventId teamId giverId : String) (r : TeamReward) : Bool :=
  r.eventId == eventId && r.teamId == teamId && r.giverId == giverId

/-- Key of a category reward row for (event, team, giver). -/
def catKey (eventId teamId giverId : String) (r : TeamRewardCategory) : Bool :=
  r.eventId == eventId && r.teamId == teamId && r.giverId == giverId

/-- The per-team cap check of the give-vr transaction (lines 107-115):
with the cap feature enabled, the role-specific cap (when it is a
number) must not be exceeded by this call's total. -/
def capFailure (event : EventRec) (grp : EventGroup) (totalAmount : Int) : Bool :=
  if event.vrTeamCapEnabled then
    match (if grp == EventGroup.COMMITTEE then event.vrTeamCapCommittee
           else event.vrTeamCapGuest) with
    | some cap => decide (cap < totalAmount)
    | none => false
  else false

/-- The give-vr transaction body (`prisma.$transaction`, lines 71-229).
Returns the success payload and the new state, or the thrown error
message together with the rolled-back (original) state.  `p` is the
participant row found by the handler, `event` its event. -/
def giveTx (db : DB) (p : Participant) (event : EventRec) (eventId : String)
    (body : GiveVrBody) : Except String (Int × Int × DB) :=
  let projectId := body.projectId
  let usingCategories := body.categories.isSome
  let normalized := normalizeCategories (body.categories.getD [])
  let totalAmount : Int :=
    if usingCategories then (normalized.map Prod.snd).sum
    else match body.amount with
      | some a => max 0 ⌊a⌋
      | none => 0
  -- category-existence check / flat-mode input check
  if usingCategories then
    let categoryIds := normalized.map Prod.fst
    let existingCategories := db.vrCategories.filter
      (fun c => c.eventId == eventId && categoryIds.contains c.id)
    if existingCategories.length ≠ categoryIds.length then
      .error "Some categories not found or invalid"
    else
      -- per-team cap check
      if capFailure event p.eventGroup totalAmount then .error "Exceeds VR per-team limit"
      else
        let totalUsedOthers := othersFlat db eventId p.userId projectId +
          othersCat db eventId p.userId projectId
        let newTotalUsed := totalUsedOthers + totalAmount
        if p.virtualReward < newTotalUsed then .error "Insufficient VR balance"
        else
          let rows := (normalized.filter (fun q => decide (0 < q.2))).map
            (fun q => TeamRewardCategory.mk eventId projectId p.userId q.1 q.2)
          let catRewards := db.catRewards.filter
            (fun r => !(catKey eventId projectId p.userId r)) ++ rows
          let rewards := db.rewards.filter
            (fun r => !(rewardKey eventId projectId p.userId r))
          let db := { db with rewards := rewards, catRewards := catRewards }
          .ok (p.virtualReward, usedFlat db eventId p.userId + usedCat db eventId p.userId, db)
  else
    match body.amount with
    | none => .error "Invalid input"
    | some _ =>
      if capFailure event p.eventGroup totalAmount then .error "Exceeds VR per-team limit"
      else
        let totalUsedOthers := othersFlat db eventId p.userId projectId +
          othersCat db eventId p.userId projectId
        let thisTeamCategoryRewards := thisTeamCat db eventId p.userId projectId
        let newTotalUsed := totalUsedOthers + thisTeamCategoryRewards + totalAmount
        if p.virtualReward < newTotalUsed then .error "Insufficient VR balance"
        else
          let rewards :=
            if (db.rewards.find? (rewardKey eventId projectId p.userId)).isSome then
              if totalAmount = 0 then
                eraseFirstReward db.rewards (rewardKey eventId projectId p.userId)
              else
                updateFirstReward db.rewards (rewardKey eventId projectId p.userId) totalAmount
            else if 0 < totalAmount then
              db.rewards ++ [TeamReward.mk eventId projectId p.userId totalAmount]
            else db.rewards
          let db := { db with rewards := rewards }
          .ok (p.virtualReward, usedFlat db eventId p.userId + usedCat db eventId p.userId, db)

/-- The give-vr route handler.  `userId` is the authenticated user,
`now` the wall clock used for the active-window gate. -/
def giveVr (db : DB) (userId eventId : String) (body : GiveVrBody) (now : Int) :
    VrResp × DB :=
  if eventId = "" then (VrResp.err "Invalid input" 400, db)
  else
    match db.participants.find? (fun p => p.eventId == eventId && p.userId == userId &&
        (p.eventGroup == .GUEST || p.eventGroup == .COMMITTEE)) with
    | none =>
      (VrResp.err "You are not a participant (Guest/Committee) in this event" 403, db)
    | some p =>
      match db.events.find? (fun e => e.id == eventId) with
      | none => (VrResp.err "Event is not active" 400, db)
      | some event =>
        if !eventActive event now then (VrResp.err "Event is not active" 400, db)
        else
          match db.teams.find? (fun t => t.id == body.projectId && t.eventId == eventId) with
          | none => (VrResp.err "Project not found in this event" 404, db)
          | some _ =>
            match giveTx db p event eventId body with
            | .ok (totalLimit, totalUsed, db) =>
              ({ message := "VR updated successfully", status := 200,
                 totalLimit := some totalLimit, totalUsed := some totalUsed,
                 newBalance := none }, db)
            | .error msg =>
              let status :=
                if msg = "Insufficient VR balance" ∨ msg = "Exceeds VR per-team limit" ∨
                    msg = "Some categories not found or invalid" ∨ msg = "Invalid input"
                then 400 else 500
              (VrResp.err msg status, db)

/-! ## reset-vr (POST /:eventId/reset-vr, eventsAction.ts lines 251-340) -/

/-- The reset-vr route handler. -/
def resetVr (db : DB) (userId eventId projectId : String) (now : Int) : VrResp × DB :=
  if eventId = "" then (VrResp.err "Invalid input" 400, db)
  else
    match db.participants.find? (fun p => p.eventId == eventId && p.userId == userId &&
        (p.eventGroup == .GUEST || p.eventGroup == .COMMITTEE)) with
    | none => (VrResp.err "You are not a participant" 403, db)
    | some p =>
      match db.events.find? (fun e => e.id == eventId) with
      | none => (VrResp.err "Event is not active" 400, db)
      | some event =>
        if !eventActive event now then (VrResp.err "Event is not active" 400, db)
        else
          let totalGiven :=
            sumRewards (db.rewards.filter (rewardKey eventId projectId p.userId)) +
            sumCatRewards (db.catRewards.filter (catKey eventId projectId p.userId))
          if totalGiven = 0 then
            ({ message := "No VR to refund", status := 200, totalLimit := none,
               totalUsed := none, newBalance := some p.virtualReward }, db)
          else
            let catRewards := db.catRewards.filter
              (fun r => !(catKey eventId projectId p.userId r))
            let rewards := db.rewards.filter
              (fun r => !(rewardKey eventId projectId p.userId r))
            let db := { db with rewards := rewards, catRewards := catRewards }
            ({ message := "VR refunded successfully", status := 200,
               totalLimit := some p.virtualReward,
               totalUsed := some (usedFlat db eventId p.userId + usedCat db eventId p.userId),
               newBalance := none }, db)

/-! ## give-special (PUT /:eventId/give-special, eventsAction.ts lines 343-456) -/

/-- Response carrying only a message and a status. -/
structure MsgResp where
  message : String
  status : Nat
deriving DecidableEq

/-- Name of a special reward row, resolved through the `reward`
relation included on the conflict query. -/
def rewardNameOf (db : DB) (rid : String) : String :=
  match db.specialRewards.find? (fun r => r.id == rid) with
  | some r => r.name
  | none => ""

/-- Modelled from the spec: the Prisma schema of this repository is not
under `src/`, and with it the uniqueness constraint the code relies on
("We can rely on unique constraint (rewardId, committeeId) to throw
error", eventsAction.ts lines 410-411; spec section 4.4: "a uniqueness
constraint on (rewardId, committeeId) as a defense against concurrent
double-insert").  `createVote` inserts one vote row and fails when a
row with the same (rewardId, committeeId) already exists. -/
def createVote (votes : List SpecialRewardVote) (v : SpecialRewardVote) :
    Except Unit (List SpecialRewardVote) :=
  if votes.any (fun w => w.rewardId == v.rewardId && w.committeeId == v.committeeId) then
    .error ()
  else
    .ok (votes ++ [v])

/-- The `for (const rid of toAdd)` create loop of the give-special
transaction; a constraint violation aborts the whole loop. -/
def createVotes (votes : List SpecialRewardVote) (committeeId teamId : String)
    (rids : List String) : Except Unit (List SpecialRewardVote) :=
  match rids with
  | [] => .ok votes
  | rid :: rest =>
    match createVote votes (SpecialRewardVote.mk rid committeeId teamId) with
    | .error e => .error e
    | .ok votes => createVotes votes committeeId teamId rest

/-- The committee member's current vote reward ids for this team
(give-special step 1, lines 394-401). -/
def currentRewardIds (db : DB) (committeeId projectId : String) : List String :=
  (db.votes.filter (fun v => v.committeeId == committeeId && v.teamId == projectId)).map
    SpecialRewardVote.rewardId

/-- Rewards to remove: currently voted for this team but not requested
(step 2, line 404). -/
def toRemoveOf (db : DB) (committeeId projectId : String) (rewardIds : List String) :
    List String :=
  (currentRewardIds db committeeId projectId).filter (fun i => !(rewardIds.contains i))

/-- Rewards to add: requested but not currently voted for this team
(step 3, line 407). -/
def toAddOf (db : DB) (committeeId projectId : String) (rewardIds : List String) :
    List String :=
  rewardIds.filter (fun i => !((currentRewardIds db committeeId projectId).contains i))

/-- Conflicting votes: a reward in `toAdd` already voted by the same
committee member for another team (step 4, lines 412-420). -/
def conflictsOf (db : DB) (committeeId projectId : String) (rewardIds : List String) :
    List SpecialRewardVote :=
  db.votes.filter (fun v => v.committeeId == committeeId &&
    (toAddOf db committeeId projectId rewardIds).contains v.rewardId &&
    !(v.teamId == projectId))

/-- The give-special route handler (full-replace semantics via a
current-vs-requested diff). -/
def giveSpecial (db : DB) (userId eventId projectId : String) (rewardIds : List String)
    (now : Int) : MsgResp × DB :=
  if eventId = "" then (MsgResp.mk "Invalid input" 400, db)
  else
    match db.participants.find? (fun p => p.eventId == eventId && p.userId == userId &&
        p.eventGroup == .COMMITTEE) with
    | none => (MsgResp.mk "You are not a committee member in this event" 403, db)
    | some p =>
      match db.events.find? (fun e => e.id == eventId) with
      | none => (MsgResp.mk "Event is not active" 400, db)
      | some event =>
        if !eventActive event now then (MsgResp.mk "Event is not active" 400, db)
        else
          match db.teams.find? (fun t => t.id == projectId && t.eventId == eventId) with
          | none => (MsgResp.mk "Team not found" 404, db)
          | some _ =>
            let rewards := db.specialRewards.filter
              (fun r => rewardIds.contains r.id && r.eventId == eventId)
            if rewards.length ≠ rewardIds.length then
              (MsgResp.mk "Some rewards not found or invalid" 400, db)
            else
              let toRemove := toRemoveOf db p.id projectId rewardIds
              let toAdd := toAddOf db p.id projectId rewardIds
              let conflicts := conflictsOf db p.id projectId rewardIds
              if conflicts ≠ [] then
                (MsgResp.mk ("Rewards already given to other teams: " ++
                  String.intercalate ", "
                    (conflicts.map (fun v => rewardNameOf db v.rewardId))) 400, db)
              else
                let votes1 := db.votes.filter (fun v => !(v.committeeId == p.id &&
                  v.teamId == projectId && toRemove.contains v.rewardId))
                match createVotes votes1 p.id projectId toAdd with
                | .ok votes2 =>
                  (MsgResp.mk "Special rewards updated successfully" 200,
                   { db with votes := votes2 })
                | .error _ =>
                  -- the transaction rolls back; the caught error is returned with 400
                  (MsgResp.mk "Unique constraint failed" 400, db)

/-- The reset-special route handler (POST /:eventId/reset-special,
eventsAction.ts lines 459-503). -/
def resetSpecial (db : DB) (userId eventId projectId : String) (now : Int) :
    MsgResp × DB :=
  if eventId = "" then (MsgResp.mk "Invalid input" 400, db)
  else
    match db.participants.find? (fun p => p.eventId == eventId && p.userId == userId &&
        p.eventGroup == .COMMITTEE) with
    | none => (MsgResp.mk "You are not a committee member in this event" 403, db)
    | some p =>
      match db.events.find? (fun e => e.id == eventId) with
      | none => (MsgResp.mk "Event is not active" 400, db)
      | some event =>
        if !eventActive event now then (MsgResp.mk "Event is not active" 400, db)
        else
          ({ message := "Special reward reset successfully", status := 200 },
           { db with votes := (db.votes.filter
              (fun v => !(v.committeeId == p.id && v.teamId == projectId))) })

/-- The give-special replace variant (unnamed route file, lines
195-260): delete all of this committee member's votes for the team,
then `createMany` the requested ids; a uniqueness violation rolls the
transaction back. -/
def giveSpecialReplace (db : DB) (userId eventId projectId : String)
    (rewardIds : List String) : MsgResp × DB :=
  if eventId = "" ∨ projectId = "" then (MsgResp.mk "Invalid input" 400, db)
  else
    match db.participants.find? (fun p => p.eventId == eventId && p.userId == userId &&
        p.eventGroup == .COMMITTEE) with
    | none => (MsgResp.mk "You are not a committee member in this event" 403, db)
    | some p =>
      match db.teams.find? (fun t => t.id == projectId && t.eventId == eventId) with
      | none => (MsgResp.mk "Team not found" 404, db)
      | some _ =>
        let rewards := db.specialRewards.filter
          (fun r => rewardIds.contains r.id && r.eventId == eventId)
        if rewards.length ≠ rewardIds.length then
          (MsgResp.mk "Some rewards not found" 404, db)
        else
          let votes1 := db.votes.filter (fun v => !(v.committeeId == p.id &&
            v.teamId == projectId))
          match createVotes votes1 p.id projectId rewardIds with
          | .ok votes2 =>
            (MsgResp.mk "Special rewards updated successfully" 200,
             { db with votes := votes2 })
          | .error _ => (MsgResp.mk "Internal server error" 500, db)

/-! ## Participant update (PUT /:id/participants/:pid, events route lines 864-965)

The handler runs without a transaction: the role-change purge and the
leaving-presenter cascade are committed even when a later authorization
check returns 403, so every early return carries the state as already
mutated. -/

/-- Request body of the participant update.  `eventGroup = none` covers
both an absent field and an invalid role string; `teamId = some none`
is an explicit JSON `null`. -/
structure UpdateBody where
  eventGroup : Option EventGroup
  isLeader : Option Bool
  virtualReward : Option Int
  teamId : Option (Option String)
deriving DecidableEq

/-- The `data` patch assembled by the handler before `update`. -/
structure DataPatch where
  eventGroup : Option EventGroup
  isLeader : Option Bool
  virtualReward : Option Int
  teamId : Option (Option String)
deriving DecidableEq

/-- An all-absent patch. -/
def DataPatch.empty : DataPatch :=
  ⟨none, none, none, none⟩

/-- Apply a patch to a participant row (`eventParticipant.update`). -/
def applyPatch (p : Participant) (d : DataPatch) : Participant :=
  { p with eventGroup := d.eventGroup.getD p.eventGroup,
           isLeader := d.isLeader.getD p.isLeader,
           virtualReward := d.virtualReward.getD p.virtualReward,
           teamId := d.teamId.getD p.teamId }

/-- Update the first participant row with the given id (`update` by
unique id). -/
def updateFirstParticipant (l : List Participant) (pid : String)
    (f : Participant → Participant) : List Participant :=
  match l with
  | [] => []
  | q :: qs => if q.id == pid then f q :: qs else q :: updateFirstParticipant qs pid f

/-- The final `eventParticipant.update` plus the ok response. -/
def finishUpdate (db : DB) (pid : String) (d : DataPatch) : MsgResp × DB :=
  (MsgResp.mk "ok" 200,
   { db with participants := (updateFirstParticipant db.participants pid
      (fun q => applyPatch q d)) })

/-- The participant update route handler. -/
def updateParticipant (db : DB) (actorUserId eventId pid : String) (body : UpdateBody) :
    MsgResp × DB :=
  match db.participants.find? (fun q => q.eventId == eventId && q.userId == actorUserId &&
      q.eventGroup == .ORGANIZER) with
  | none => (MsgResp.mk "Forbidden" 403, db)
  | some organizer =>
    -- data.eventGroup plus the role-based auto virtualReward
    let d0 : DataPatch :=
      match body.eventGroup with
      | some eg =>
        let vr : Option Int :=
          match db.events.find? (fun e => e.id == eventId) with
          | some event =>
            match eg with
            | .ORGANIZER => some 0
            | .PRESENTER => some 0
            | .COMMITTEE => some (event.virtualRewardCommittee.getD 0)
            | .GUEST => some (event.virtualRewardGuest.getD 0)
          | none => none
        { eventGroup := some eg, isLeader := none, virtualReward := vr, teamId := none }
      | none => DataPatch.empty
    match db.participants.find? (fun q => q.id == pid && q.eventId == eventId) with
    | none => (MsgResp.mk "Participant not found" 404, db)
    | some existing =>
      -- role change: purge flat rewards given by this user and this
      -- participant's special-reward votes (lines 899-916)
      let db :=
        if (match d0.eventGroup with
            | some g => decide (g ≠ existing.eventGroup)
            | none => false) then
          { db with
            rewards := db.rewards.filter
              (fun r => !(r.eventId == eventId && r.giverId == existing.userId)),
            votes := db.votes.filter (fun v => !(v.committeeId == pid)) }
        else db
      let d1 : DataPatch :=
        { d0 with
          isLeader := body.isLeader,
          virtualReward := match body.virtualReward with
            | some n => some (max 0 n)
            | none => d0.virtualReward,
          teamId := match body.teamId with
            | some none => some none
            | some (some s) => if s = "" then d0.teamId else some (some s)
            | none => d0.teamId }
      if existing.eventGroup == .ORGANIZER then
        if !organizer.isLeader then
          (MsgResp.mk "Only organizer leader can manage organizer group" 403, db)
        else if existing.userId == actorUserId then
          (MsgResp.mk "Organizer leader cannot manage self" 403, db)
        else if body.isLeader.isSome then
          (MsgResp.mk "Cannot change organizer leader flag" 403, db)
        else finishUpdate db pid d1
      else
        if !organizer.isLeader && body.eventGroup == some .ORGANIZER then
          (MsgResp.mk "Only organizer leader can assign organizer role" 403, db)
        else
          match existing.teamId with
          | some t =>
            if existing.eventGroup == .PRESENTER &&
                (match d1.eventGroup with
                 | some g => decide (g ≠ EventGroup.PRESENTER)
                 | none => false) then
              if existing.isLeader then
                -- leaving leader: detach every member, delete the team
                let db := { db with
                  participants := db.participants.map
                    (fun q => if q.teamId == some t then
                      { q with teamId := none, isLeader := false } else q),
                  teams := db.teams.filter (fun tm => !(tm.id == t)) }
                finishUpdate db pid { d1 with teamId := some none, isLeader := some false }
              else
                finishUpdate db pid { d1 with teamId := some none }
            else finishUpdate db pid d1
          | none => finishUpdate db pid d1

/-- The participant delete route handler (DELETE /:id/participants/:pid,
events route lines 967-985).  No team cascade of any kind runs here. -/
def deleteParticipant (db : DB) (actorUserId eventId pid : String) : MsgResp × DB :=
  match db.participants.find? (fun q => q.eventId == eventId && q.userId == actorUserId &&
      q.eventGroup == .ORGANIZER) with
  | none => (MsgResp.mk "Forbidden" 403, db)
  | some organizer =>
    match db.participants.find? (fun q => q.id == pid && q.eventId == eventId) with
    | none => (MsgResp.mk "Participant not found" 404, db)
    | some existing =>
      if existing.eventGroup == .ORGANIZER then
        if !organizer.isLeader then
          (MsgResp.mk "Only organizer leader can delete organizer" 403, db)
        else if existing.userId == actorUserId then
          (MsgResp.mk "Organizer leader cannot delete self" 403, db)
        else
          (MsgResp.mk "ok" 200,
           { db with participants := db.participants.filter (fun q => !(q.id == pid)) })
      else
        (MsgResp.mk "ok" 200,
         { db with participants := db.participants.filter (fun q => !(q.id == pid)) })

/-- The team dissolve route handler (DELETE /:id/teams/:teamId, events
route lines 1362-1390): detach every participant of the team, then
delete the Team row (a missing row makes `team.delete` throw after the
detach already ran). -/
def dissolveTeam (db : DB) (actorUserId eventId teamId : String) : MsgResp × DB :=
  let authorized :=
    (match db.participants.find? (fun q => q.eventId == eventId &&
        q.userId == actorUserId) with
     | some q => q.teamId == some teamId && q.isLeader
     | none => false) ||
    (db.participants.any (fun q => q.eventId == eventId && q.userId == actorUserId &&
        q.eventGroup == .ORGANIZER))
  if !authorized then (MsgResp.mk "Forbidden" 403, db)
  else
    let db1 := { db with participants := (db.participants.map
      (fun q => if q.teamId == some teamId then
        { q with teamId := none, isLeader := false } else q)) }
    if db.teams.any (fun tm => tm.id == teamId) then
      (MsgResp.mk "ok" 200, { db1 with teams := db1.teams.filter (fun tm => !(tm.id == teamId)) })
    else
      (MsgResp.mk "Internal server error" 500, db1)

/-- The member removal route handler (DELETE
/:id/teams/:teamId/members/:userId, events route lines 1538-1574). -/
def removeMember (db : DB) (actorUserId eventId teamId targetUserId : String) :
    MsgResp × DB :=
  match db.participants.find? (fun q => q.eventId == eventId &&
      q.userId == actorUserId) with
  | none => (MsgResp.mk "Forbidden" 403, db)
  | some requester =>
    if !(requester.teamId == some teamId) then (MsgResp.mk "Forbidden" 403, db)
    else if !requester.isLeader && !(actorUserId == targetUserId) then
      (MsgResp.mk "Only leader can remove other members" 403, db)
    else
      match db.participants.find? (fun q => q.eventId == eventId &&
          q.userId == targetUserId) with
      | none => (MsgResp.mk "User not in this team" 404, db)
      | some target =>
        if !(target.teamId == some teamId) then (MsgResp.mk "User not in this team" 404, db)
        else if target.isLeader then (MsgResp.mk "Cannot remove leader" 400, db)
        else
          (MsgResp.mk "ok" 200,
           { db with participants := (updateFirstParticipant db.participants target.id
              (fun q => { q with teamId := none })) })

/-- The tail of the event update route handler (PUT /:id, events route
lines 1803-1817): write the new per-role budget amounts on the Event
row, then propagate each provided amount to every existing GUEST /
COMMITTEE participant of the event. -/
def syncEventBudget (db : DB) (eventId : String) (vg vc : Option Int) : DB :=
  let events := db.events.map (fun e =>
    if e.id == eventId then
      { e with
        virtualRewardGuest := match vg with
          | some n => some n
          | none => e.virtualRewardGuest,
        virtualRewardCommittee := match vc with
          | some n => some n
          | none => e.virtualRewardCommittee }
    else e)
  let ps1 := match vg with
    | some n => db.participants.map (fun p =>
        if p.eventId == eventId && p.eventGroup == .GUEST then
          { p with virtualReward := n } else p)
    | none => db.participants
  let ps2 := match vc with
    | some n => ps1.map (fun p =>
        if p.eventId == eventId && p.eventGroup == .COMMITTEE then
          { p with virtualReward := n } else p)
    | none => ps1
  { db with events := events, participants := ps2 }

/-! ## Properties of the JS-Map normalization (claim C10) -/

/-- Per-key reference total: the sum of the clamped amounts of all
input entries whose trimmed category id equals `k`. -/
def sumClamped (cats : List CatEntry) (k : String) : Int :=
  ((cats.filter (fun r => r.categoryId.trim == k)).map (fun r => clampAmount r.amount)).sum

/-- One step of the normalization `reduce`. -/
def normStep (acc : List (String × Int)) (r : CatEntry) : List (String × Int) :=
  let categoryId := r.categoryId.trim
  let nextAmount := clampAmount r.amount
  if categoryId = "" then acc
  else jsMapSet acc categoryId (jsMapGet acc categoryId + nextAmount)

theorem normalizeCategories_eq_foldl (cats : List CatEntry) :
    normalizeCategories cats = cats.foldl normStep [] := rfl

theorem jsMapGet_nil (k : String) : jsMapGet [] k = 0 := rfl

theorem find?_map_set (acc : List (String × Int)) (k : String) (v : Int) :
    (acc.map (fun p => if p.1 == k then (k, v) else p)).find? (fun p => p.1 == k) =
      if acc.any (fun p => p.1 == k) then some (k, v) else none := by
  induction acc with
  | nil => rfl
  | cons q qs ih =>
    by_cases hq : (q.1 == k) = true
    · rw [List.map_cons, if_pos hq,
        List.find?_cons_of_pos (p := fun x : String × Int => x.1 == k) _ (by simp),
        List.any_cons, hq]
      simp
    · have hq0 : (q.1 == k) = false := by simpa using hq
      rw [List.map_cons, if_neg hq,
        List.find?_cons_of_neg (p := fun x : String × Int => x.1 == k) _ hq, ih,
        List.any_cons, hq0, Bool.false_or]

theorem find?_map_set_ne (acc : List (String × Int)) (k : String) (v : Int)
    (k' : String) (hne : k' ≠ k) :
    (acc.map (fun p => if p.1 == k then (k, v) else p)).find? (fun p => p.1 == k') =
      acc.find? (fun p => p.1 == k') := by
  induction acc with
  | nil => rfl
  | cons q qs ih =>
    rw [List.map_cons]
    by_cases hq : (q.1 == k) = true
    · have hq1 : q.1 = k := eq_of_beq hq
      have h1 : ¬ ((k, v).1 == k') = true := by
        simp only [beq_iff_eq]
        exact fun he => hne (he.symm)
      have h2 : ¬ (q.1 == k') = true := by
        simp only [beq_iff_eq, hq1]
        exact fun he => hne (he.symm)
      rw [if_pos hq,
        List.find?_cons_of_neg (p := fun x : String × Int => x.1 == k') _ h1,
        List.find?_cons_of_neg (p := fun x : String × Int => x.1 == k') _ h2, ih]
    · rw [if_neg hq]
      by_cases hq' : (q.1 == k') = true
      · rw [List.find?_cons_of_pos (p := fun x : String × Int => x.1 == k') _ hq',
          List.find?_cons_of_pos (p := fun x : String × Int => x.1 == k') _ hq']
      · rw [List.find?_cons_of_neg (p := fun x : String × Int => x.1 == k') _ hq',
          List.find?_cons_of_neg (p := fun x : String × Int => x.1 == k') _ hq', ih]

theorem jsMapGet_jsMapSet_self (acc : List (String × Int)) (k : String) (v : Int) :
    jsMapGet (jsMapSet acc k v) k = v := by
  unfold jsMapSet
  by_cases h : acc.any (fun p => p.1 == k) = true
  · rw [if_pos h]
    unfold jsMapGet
    rw [find?_map_set, if_pos h]
  · rw [if_neg h]
    unfold jsMapGet
    rw [List.find?_append]
    have hnone : acc.find? (fun p => p.1 == k) = none := by
      rw [List.find?_eq_none]
      intro p hp hpk
      exact h (List.any_eq_true.mpr ⟨p, hp, hpk⟩)
    rw [hnone]
    simp [List.find?]

theorem jsMapGet_jsMapSet_ne (acc : List (String × Int)) (k : String) (v : Int)
    (k' : String) (hne : k' ≠ k) :
    jsMapGet (jsMapSet acc k v) k' = jsMapGet acc k' := by
  unfold jsMapSet
  by_cases h : acc.any (fun p => p.1 == k) = true
  · rw [if_pos h]
    unfold jsMapGet
    rw [find?_map_set_ne _ _ _ _ hne]
  · rw [if_neg h]
    unfold jsMapGet
    rw [List.find?_append]
    have hsingle : ([(k, v)].find? (fun p => p.1 == k')) = none := by
      have hkk : ((k, v).1 == k') = false := by
        simp only [beq_eq_false_iff_ne]
        exact fun he => hne he.symm
      simp [List.find?, hkk]
    rw [hsingle, Option.or_none]

theorem keys_jsMapSet_any (acc : List (String × Int)) (k : String) (v : Int)
    (h : acc.any (fun p => p.1 == k) = true) :
    (jsMapSet acc k v).map Prod.fst = acc.map Prod.fst := by
  unfold jsMapSet
  rw [if_pos h, List.map_map]
  refine List.map_congr_left ?_
  intro p _
  simp only [Function.comp_apply]
  split
  · next hc => exact (eq_of_beq hc).symm
  · rfl

theorem keys_jsMapSet_not_any (acc : List (String × Int)) (k : String) (v : Int)
    (h : ¬ acc.any (fun p => p.1 == k) = true) :
    (jsMapSet acc k v).map Prod.fst = acc.map Prod.fst ++ [k] := by
  unfold jsMapSet
  rw [if_neg h, List.map_append]
  rfl

theorem nodup_keys_jsMapSet (acc : List (String × Int)) (k : String) (v : Int)
    (hnd : (acc.map Prod.fst).Nodup) :
    ((jsMapSet acc k v).map Prod.fst).Nodup := by
  by_cases h : acc.any (fun p => p.1 == k) = true
  · rw [keys_jsMapSet_any _ _ _ h]
    exact hnd
  · rw [keys_jsMapSet_not_any _ _ _ h]
    rw [List.nodup_append]
    refine ⟨hnd, List.nodup_singleton _, ?_⟩
    intro a ha hb
    rcases List.mem_map.mp ha with ⟨p, hp, rfl⟩
    rcases List.mem_singleton.mp hb with rfl
    exact h (List.any_eq_true.mpr ⟨p, hp, by simp⟩)

theorem mem_jsMapSet_cases (acc : List (String × Int)) (k : String) (v : Int)
    (kv : String × Int) (h : kv ∈ jsMapSet acc k v) :
    kv ∈ acc ∨ kv.1 = k := by
  unfold jsMapSet at h
  split at h
  · rcases List.mem_map.mp h with ⟨p, hp, he⟩
    by_cases hc : (p.1 == k) = true
    · right
      rw [if_pos hc] at he
      rw [← he]
    · left
      rw [if_neg hc] at he
      exact he ▸ hp
  · rcases List.mem_append.mp h with h' | h'
    · left
      exact h'
    · right
      rcases List.mem_singleton.mp h' with rfl
      rfl

theorem jsMapGet_of_mem {P : List (String × Int)} (hnd : (P.map Prod.fst).Nodup)
    {kv : String × Int} (h : kv ∈ P) : jsMapGet P kv.1 = kv.2 := by
  induction P with
  | nil => cases h
  | cons q qs ih =>
    rw [List.map_cons, List.nodup_cons] at hnd
    rcases List.mem_cons.mp h with rfl | hmem
    · unfold jsMapGet
      rw [List.find?_cons_of_pos (p := fun x : String × Int => x.1 == kv.1) _ (by simp)]
    · have hne : ¬ (q.1 == kv.1) = true := by
        simp only [beq_iff_eq]
        intro he
        exact hnd.1 (he ▸ List.mem_map_of_mem Prod.fst hmem)
      unfold jsMapGet
      rw [List.find?_cons_of_neg (p := fun x : String × Int => x.1 == kv.1) _ hne]
      exact ih hnd.2 hmem

theorem foldl_normStep_spec (cats : List CatEntry) (acc : List (String × Int))
    (hnd : (acc.map Prod.fst).Nodup) (hne : ∀ kv ∈ acc, kv.1 ≠ "") :
    ((cats.foldl normStep acc).map Prod.fst).Nodup ∧
    (∀ kv ∈ cats.foldl normStep acc, kv.1 ≠ "") ∧
    (∀ k, k ≠ "" → jsMapGet (cats.foldl normStep acc) k = jsMapGet acc k + sumClamped cats k) := by
  induction cats generalizing acc with
  | nil =>
    refine ⟨by simpa using hnd, by simpa using hne, ?_⟩
    intro k _
    simp [sumClamped]
  | cons r cs ih =>
    rw [List.foldl_cons]
    by_cases hr : r.categoryId.trim = ""
    · have hstep : normStep acc r = acc := by simp [normStep, hr]
      rw [hstep]
      obtain ⟨h1, h2, h3⟩ := ih acc hnd hne
      refine ⟨h1, h2, ?_⟩
      intro k hk
      rw [h3 k hk]
      have hfk : (r.categoryId.trim == k) = false := by
        simp only [beq_eq_false_iff_ne, hr]
        exact fun he => hk he.symm
      simp [sumClamped, List.filter_cons, hfk]
    · have hstep : normStep acc r =
          jsMapSet acc r.categoryId.trim
            (jsMapGet acc r.categoryId.trim + clampAmount r.amount) := by
        simp [normStep, hr]
      rw [hstep]
      have hnd' := nodup_keys_jsMapSet acc r.categoryId.trim
        (jsMapGet acc r.categoryId.trim + clampAmount r.amount) hnd
      have hne' : ∀ kv ∈ jsMapSet acc r.categoryId.trim
          (jsMapGet acc r.categoryId.trim + clampAmount r.amount), kv.1 ≠ "" := by
        intro kv hkv
        rcases mem_jsMapSet_cases _ _ _ _ hkv with hin | hfst
        · exact hne kv hin
        · rw [hfst]
          exact hr
      obtain ⟨h1, h2, h3⟩ := ih _ hnd' hne'
      refine ⟨h1, h2, ?_⟩
      intro k hk
      rw [h3 k hk]
      by_cases hkt : k = r.categoryId.trim
      · rw [hkt, jsMapGet_jsMapSet_self]
        simp [sumClamped, List.filter_cons]
        ring
      · rw [jsMapGet_jsMapSet_ne _ _ _ _ hkt]
        have hfk : (r.categoryId.trim == k) = false := by
          simp only [beq_eq_false_iff_ne]
          exact fun he => hkt he.symm
        simp [sumClamped, List.filter_cons, hfk]

/-- Shared characterization of the normalization fold: distinct keys,
no empty key, and each key carries the sum of the clamped amounts of
the input entries trimming to it. -/
theorem normalizeCategories_spec (cats : List CatEntry) :
    ((normalizeCategories cats).map Prod.fst).Nodup ∧
    (∀ kv ∈ normalizeCategories cats, kv.1 ≠ "" ∧ kv.2 = sumClamped cats kv.1) := by
  obtain ⟨h1, h2, h3⟩ := foldl_normStep_spec cats [] (by simp) (by simp)
  rw [← normalizeCategories_eq_foldl] at h1 h2 h3
  refine ⟨h1, ?_⟩
  intro kv hkv
  refine ⟨h2 kv hkv, ?_⟩
  have hval := jsMapGet_of_mem h1 hkv
  rw [← hval, h3 kv.1 (h2 kv hkv), jsMapGet_nil]
  ring

theorem sumClamped_nonneg (cats : List CatEntry) (k : String) : 0 ≤ sumClamped cats k := by
  unfold sumClamped
  apply List.sum_nonneg
  intro x hx
  rcases List.mem_map.mp hx with ⟨r, _, rfl⟩
  exact le_max_left 0 _

theorem normalizeCategories_nonneg (cats : List CatEntry) :
    ∀ kv ∈ normalizeCategories cats, 0 ≤ kv.2 := by
  intro kv hkv
  rw [((normalizeCategories_spec cats).2 kv hkv).2]
  exact sumClamped_nonneg cats kv.1

/-- Dropping the non-positive entries of a list of non-negative values
does not change its sum. -/
theorem sum_filter_pos_eq (l : List (String × Int)) (h : ∀ kv ∈ l, 0 ≤ kv.2) :
    ((l.filter (fun p => decide (0 < p.2))).map Prod.snd).sum = (l.map Prod.snd).sum := by
  induction l with
  | nil => rfl
  | cons kv rest ih =>
    have hrest := ih (fun x hx => h x (List.mem_cons_of_mem kv hx))
    have hkv := h kv (List.mem_cons_self kv rest)
    by_cases hp : 0 < kv.2
    · simp [List.filter_cons, hp, hrest]
    · have hz : kv.2 = 0 := by omega
      simp [List.filter_cons, hp, hrest, hz]

/-- C10: in a categorized give call, the input list is normalized before
any validation or write: entries whose categoryId is empty or
whitespace-only (trims to the empty string) are silently dropped, each
amount is floored to an integer and clamped to at least 0, and entries
with the same categoryId are merged into one row carrying the sum of
their clamped amounts — so for every input list the normalized map, and
hence the written category rows, contain each categoryId at most once,
and written rows carry only positive amounts. -/
theorem giveVr_categorized_normalization (cats : List CatEntry) :
    ((normalizeCategories cats).map Prod.fst).Nodup ∧
    (∀ kv ∈ normalizeCategories cats, kv.1 ≠ "" ∧ kv.2 = sumClamped cats kv.1) ∧
    ((categoryRows cats).map Prod.fst).Nodup ∧
    (∀ kv ∈ categoryRows cats, 0 < kv.2) := by
  obtain ⟨h1, h2⟩ := normalizeCategories_spec cats
  refine ⟨h1, h2, ?_, ?_⟩
  · exact h1.sublist ((List.filter_sublist _).map Prod.fst)
  · intro kv hkv
    exact of_decide_eq_true (List.mem_filter.mp hkv).2

/-! ## Generic lemmas about sums over filtered row lists -/

theorem sumRewards_filter_split (l : List TeamReward) (q p : TeamReward → Bool) :
    sumRewards (l.filter q) =
      sumRewards (l.filter (fun r => q r && p r)) +
        sumRewards (l.filter (fun r => q r && !(p r))) := by
  induction l with
  | nil => simp [sumRewards]
  | cons r rs ih =>
    by_cases hq : q r = true
    · by_cases hp : p r = true
      · simp [List.filter_cons, hq, hp, sumRewards] at ih ⊢
        omega
      · simp [List.filter_cons, hq, hp, sumRewards] at ih ⊢
        omega
    · simp [List.filter_cons, hq, sumRewards] at ih ⊢
      omega

theorem sumCatRewards_filter_split (l : List TeamRewardCategory)
    (q p : TeamRewardCategory → Bool) :
    sumCatRewards (l.filter q) =
      sumCatRewards (l.filter (fun r => q r && p r)) +
        sumCatRewards (l.filter (fun r => q r && !(p r))) := by
  induction l with
  | nil => simp [sumCatRewards]
  | cons r rs ih =>
    by_cases hq : q r = true
    · by_cases hp : p r = true
      · simp [List.filter_cons, hq, hp, sumCatRewards] at ih ⊢
        omega
      · simp [List.filter_cons, hq, hp, sumCatRewards] at ih ⊢
        omega
    · simp [List.filter_cons, hq, sumCatRewards] at ih ⊢
      omega

theorem filter_eraseFirstReward_disjoint (l : List TeamReward) (key q : TeamReward → Bool)
    (hd : ∀ r, key r = true → q r = false) :
    (eraseFirstReward l key).filter q = l.filter q := by
  induction l with
  | nil => rfl
  | cons r rs ih =>
    unfold eraseFirstReward
    by_cases hk : key r = true
    · rw [if_pos hk, List.filter_cons, hd r hk]
      simp
    · rw [if_neg hk, List.filter_cons, List.filter_cons, ih]

theorem filter_updateFirstReward_disjoint (l : List TeamReward) (key q : TeamReward → Bool)
    (amt : Int) (hd : ∀ r, key r = true → q r = false)
    (hkb : ∀ r a, key { r with reward := a } = key r) :
    (updateFirstReward l key amt).filter q = l.filter q := by
  induction l with
  | nil => rfl
  | cons r rs ih =>
    unfold updateFirstReward
    by_cases hk : key r = true
    · rw [if_pos hk, List.filter_cons, List.filter_cons]
      have h1 : q { r with reward := amt } = false := by
        apply hd
        rw [hkb]
        exact hk
      rw [h1, hd r hk]
      simp
    · rw [if_neg hk, List.filter_cons, List.filter_cons, ih]

theorem sum_filter_eraseFirstReward (l : List TeamReward) (key q : TeamReward → Bool)
    (r0 : TeamReward) (h : l.find? key = some r0) (hq : q r0 = true) :
    sumRewards ((eraseFirstReward l key).filter q) =
      sumRewards (l.filter q) - r0.reward := by
  induction l with
  | nil => simp at h
  | cons r rs ih =>
    unfold eraseFirstReward
    by_cases hk : key r = true
    · rw [List.find?_cons_of_pos _ hk] at h
      rcases Option.some.inj h with rfl
      rw [if_pos hk, List.filter_cons, hq]
      simp [sumRewards]
    · rw [List.find?_cons_of_neg _ hk] at h
      rw [if_neg hk, List.filter_cons, List.filter_cons]
      by_cases hqr : q r = true
      · simp only [hqr, if_pos]
        simp [sumRewards] at ih ⊢
        rw [ih h]
        omega
      · simp only [hqr]
        simp [sumRewards] at ih ⊢
        rw [ih h]

theorem sum_filter_updateFirstReward (l : List TeamReward) (key q : TeamReward → Bool)
    (amt : Int) (r0 : TeamReward) (h : l.find? key = some r0) (hq : q r0 = true)
    (hqb : ∀ r a, q { r with reward := a } = q r) :
    sumRewards ((updateFirstReward l key amt).filter q) =
      sumRewards (l.filter q) - r0.reward + amt := by
  induction l with
  | nil => simp at h
  | cons r rs ih =>
    unfold updateFirstReward
    by_cases hk : key r = true
    · rw [List.find?_cons_of_pos _ hk] at h
      rcases Option.some.inj h with rfl
      rw [if_pos hk, List.filter_cons, List.filter_cons, hq]
      have h1 : q { r with reward := amt } = true := by
        rw [hqb]
        exact hq
      rw [h1]
      simp [sumRewards]
      omega
    · rw [List.find?_cons_of_neg _ hk] at h
      rw [if_neg hk, List.filter_cons, List.filter_cons]
      by_cases hqr : q r = true
      · simp only [hqr, if_pos]
        simp [sumRewards] at ih ⊢
        rw [ih h]
        omega
      · simp only [hqr]
        simp [sumRewards] at ih ⊢
        rw [ih h]

theorem sum_filter_append_reward (l : List TeamReward) (q : TeamReward → Bool)
    (row : TeamReward) :
    sumRewards ((l ++ [row]).filter q) =
      sumRewards (l.filter q) + (if q row then row.reward else 0) := by
  rw [List.filter_append]
  by_cases hq : q row = true
  · simp [sumRewards, List.filter_cons, hq]
  · simp [sumRewards, List.filter_cons, hq]

theorem filter_of_find?_none (l : List TeamReward) (p : TeamReward → Bool)
    (h : l.find? p = none) : l.filter p = [] := by
  rw [List.filter_eq_nil]
  rw [List.find?_eq_none] at h
  exact h

theorem filter_neg_of_filter_nil {α : Type} (l : List α) (p : α → Bool)
    (h : l.filter p = []) : l.filter (fun a => !(p a)) = l := by
  rw [List.filter_eq_nil] at h
  induction l with
  | nil => rfl
  | cons a l ih =>
    have ha : p a = false := by
      have := h a (List.mem_cons_self a l)
      simpa using this
    rw [List.filter_cons]
    simp only [ha]
    rw [ih (fun x hx => h x (List.mem_cons_of_mem a hx))]
    simp

theorem filter_conj_neg_nil {α : Type} (l : List α) (p q : α → Bool)
    (h : ∀ a, q a = true → p a = false) : (l.filter p).filter q = [] := by
  rw [List.filter_eq_nil]
  intro a ha hqa
  have hpa := (List.mem_filter.mp ha).2
  rw [h a hqa] at hpa
  cases hpa

/-! ## Schema key uniqueness

The Prisma schema declares `(eventId, teamId, giverId)` unique on
`TeamReward` (spec section 3) and `(eventId, userId)` unique on
`EventParticipant`; the handlers rely on these through `findFirst`,
`update` and `delete` by id. -/

/-- At most one flat reward row per (eventId, teamId, giverId). -/
def flatUniq (l : List TeamReward) : Prop :=
  l.Pairwise (fun r s => ¬(r.eventId = s.eventId ∧ r.teamId = s.teamId ∧ r.giverId = s.giverId))

/-- At most one participant row per (eventId, userId). -/
def participantsUniq (l : List Participant) : Prop :=
  l.Pairwise (fun p q => ¬(p.eventId = q.eventId ∧ p.userId = q.userId))

/-- At most one vote row per (rewardId, committeeId): the claimed
exclusivity invariant of `SpecialRewardVote`. -/
def votesUniq (l : List SpecialRewardVote) : Prop :=
  l.Pairwise (fun v w => ¬(v.rewardId = w.rewardId ∧ v.committeeId = w.committeeId))

/-- All stored amounts are non-negative (every write path clamps with
`Math.max(0, ...)` or filters on positivity). -/
def nonnegAmounts (db : DB) : Prop :=
  (∀ r ∈ db.rewards, 0 ≤ r.reward) ∧ (∀ c ∈ db.catRewards, 0 ≤ c.amount)

theorem rewardKey_iff (e t u : String) (r : TeamReward) :
    rewardKey e t u r = true ↔ (r.eventId = e ∧ r.teamId = t ∧ r.giverId = u) := by
  simp [rewardKey, Bool.and_eq_true, and_assoc]

theorem rewardKey_reward_blind (e t u : String) (r : TeamReward) (a : Int) :
    rewardKey e t u { r with reward := a } = rewardKey e t u r := rfl

theorem flatUniq_filter_key (l : List TeamReward) (h : flatUniq l) (e t u : String)
    (r0 : TeamReward) (hf : l.find? (rewardKey e t u) = some r0) :
    l.filter (rewardKey e t u) = [r0] := by
  induction l with
  | nil => simp at hf
  | cons r rs ih =>
    rcases List.pairwise_cons.mp h with ⟨hrel, hrest⟩
    by_cases hk : rewardKey e t u r = true
    · rw [List.find?_cons_of_pos _ hk] at hf
      rcases Option.some.inj hf with rfl
      rw [List.filter_cons, hk]
      have hnil : rs.filter (rewardKey e t u) = [] := by
        rw [List.filter_eq_nil_iff]
        intro s hs hks
        rcases (rewardKey_iff e t u r).mp hk with ⟨h1, h2, h3⟩
        rcases (rewardKey_iff e t u s).mp hks with ⟨h4, h5, h6⟩
        exact hrel s hs ⟨h1.trans h4.symm, h2.trans h5.symm, h3.trans h6.symm⟩
      rw [hnil]
      simp
    · rw [List.find?_cons_of_neg _ hk] at hf
      rw [List.filter_cons]
      simp only [hk]
      exact ih hrest hf

theorem filter_key_eraseFirstReward (l : List TeamReward) (key : TeamReward → Bool) :
    (eraseFirstReward l key).filter key = (l.filter key).drop 1 := by
  induction l with
  | nil => rfl
  | cons r rs ih =>
    unfold eraseFirstReward
    by_cases hk : key r = true
    · rw [if_pos hk, List.filter_cons, hk]
      simp
    · rw [if_neg hk, List.filter_cons, List.filter_cons]
      simp only [hk]
      exact ih

theorem filter_key_updateFirstReward (l : List TeamReward) (e t u : String) (amt : Int)
    (r0 : TeamReward) (hf : l.find? (rewardKey e t u) = some r0) :
    (updateFirstReward l (rewardKey e t u) amt).filter (rewardKey e t u) =
      { r0 with reward := amt } :: (l.filter (rewardKey e t u)).drop 1 := by
  induction l with
  | nil => simp at hf
  | cons r rs ih =>
    unfold updateFirstReward
    by_cases hk : rewardKey e t u r = true
    · rw [List.find?_cons_of_pos _ hk] at hf
      rcases Option.some.inj hf with rfl
      rw [if_pos hk, List.filter_cons]
      have hk2 : rewardKey e t u { r with reward := amt } = true := by
        rw [rewardKey_reward_blind]
        exact hk
      rw [hk2, List.filter_cons, hk]
      simp
    · rw [List.find?_cons_of_neg _ hk] at hf
      rw [if_neg hk, List.filter_cons, List.filter_cons]
      simp only [hk]
      exact ih hf

/-- Splitting a giver's flat total into the (event, team, giver)-key
part and the other-teams part. -/
theorem usedFlat_split (db : DB) (e u t : String) :
    usedFlat db e u =
      sumRewards (db.rewards.filter (rewardKey e t u)) + othersFlat db e u t := by
  have e1 : db.rewards.filter
      (fun r => (r.eventId == e && r.giverId == u) && (r.teamId == t)) =
      db.rewards.filter (rewardKey e t u) := by
    apply List.filter_congr
    intro r _
    unfold rewardKey
    cases hr1 : r.eventId == e <;> cases hr2 : r.teamId == t <;> cases hr3 : r.giverId == u <;>
      rfl
  have e2 : db.rewards.filter
      (fun r => (r.eventId == e && r.giverId == u) && !(r.teamId == t)) =
      db.rewards.filter
        (fun r => r.eventId == e && r.giverId == u && !(r.teamId == t)) := by
    apply List.filter_congr
    intro r _
    cases hr1 : r.eventId == e <;> cases hr2 : r.teamId == t <;> cases hr3 : r.giverId == u <;>
      rfl
  unfold usedFlat othersFlat
  rw [sumRewards_filter_split db.rewards
    (fun r => r.eventId == e && r.giverId == u) (fun r => r.teamId == t), e1, e2]

/-- Splitting a giver's categorized total into the this-team part and
the other-teams part. -/
theorem usedCat_split (db : DB) (e u t : String) :
    usedCat db e u = thisTeamCat db e u t + othersCat db e u t := by
  have e1 : db.catRewards.filter
      (fun r => (r.eventId == e && r.giverId == u) && (r.teamId == t)) =
      db.catRewards.filter
        (fun r => r.eventId == e && r.teamId == t && r.giverId == u) := by
    apply List.filter_congr
    intro r _
    cases hr1 : r.eventId == e <;> cases hr2 : r.teamId == t <;> cases hr3 : r.giverId == u <;>
      rfl
  have e2 : db.catRewards.filter
      (fun r => (r.eventId == e && r.giverId == u) && !(r.teamId == t)) =
      db.catRewards.filter
        (fun r => r.eventId == e && r.giverId == u && !(r.teamId == t)) := by
    apply List.filter_congr
    intro r _
    cases hr1 : r.eventId == e <;> cases hr2 : r.teamId == t <;> cases hr3 : r.giverId == u <;>
      rfl
  unfold usedCat thisTeamCat othersCat
  rw [sumCatRewards_filter_split db.catRewards
    (fun r => r.eventId == e && r.giverId == u) (fun r => r.teamId == t), e1, e2]

/-- Inversion of a successful flat-mode give transaction: the returned
totals, the budget bound, the untouched tables, the upserted flat row
and the untouched unrelated flat rows. -/
theorem giveTx_flat_ok (db : DB) (p : Participant) (event : EventRec) (e : String)
    (body : GiveVrBody) (a : ℚ) (hcats : body.categories = none)
    (hamt : body.amount = some a) (huniq : flatUniq db.rewards)
    (L U : Int) (db' : DB)
    (h : giveTx db p event e body = .ok (L, U, db')) :
    L = p.virtualReward ∧
    U = othersFlat db e p.userId body.projectId + othersCat db e p.userId body.projectId +
      thisTeamCat db e p.userId body.projectId + max 0 ⌊a⌋ ∧
    U ≤ p.virtualReward ∧
    U = usedFlat db' e p.userId + usedCat db' e p.userId ∧
    db'.catRewards = db.catRewards ∧ db'.events = db.events ∧
    db'.participants = db.participants ∧ db'.teams = db.teams ∧
    db'.vrCategories = db.vrCategories ∧ db'.specialRewards = db.specialRewards ∧
    db'.votes = db.votes ∧
    db'.rewards.filter (rewardKey e body.projectId p.userId) =
      (if max 0 ⌊a⌋ = 0 then []
       else [TeamReward.mk e body.projectId p.userId (max 0 ⌊a⌋)]) ∧
    (∀ q : TeamReward → Bool,
      (∀ r, rewardKey e body.projectId p.userId r = true → q r = false) →
      (∀ r x, q { r with reward := x } = q r) →
      db'.rewards.filter q = db.rewards.filter q) := by
  unfold giveTx at h
  rw [hcats, hamt] at h
  simp only [Option.isSome_none, Bool.false_eq_true, if_false, reduceIte] at h
  set t := body.projectId with ht
  set u := p.userId with hu
  set amt : Int := max 0 ⌊a⌋ with hamt2
  split at h
  · exact absurd h (by simp)
  · split at h
    · exact absurd h (by simp)
    · rename_i hcap hbal
      simp only [Except.ok.injEq, Prod.mk.injEq] at h
      obtain ⟨hL, hU, hdb⟩ := h
      subst hdb
      subst hL
      subst hU
      have hbal2 : othersFlat db e u t + othersCat db e u t + thisTeamCat db e u t + amt ≤
          p.virtualReward := by omega
      -- the four write shapes share these abbreviations
      have hqb : ∀ (r : TeamReward) (x : Int),
          (fun r => r.eventId == e && r.giverId == u) { r with reward := x } =
          (fun r => r.eventId == e && r.giverId == u) r := fun _ _ => rfl
      by_cases hex : (db.rewards.find? (rewardKey e t u)).isSome = true
      · rcases Option.isSome_iff_exists.mp hex with ⟨r0, hr0⟩
        have hk0 : rewardKey e t u r0 = true := List.find?_some hr0
        have hq0 : (fun r => r.eventId == e && r.giverId == u) r0 = true := by
          rcases (rewardKey_iff e t u r0).mp hk0 with ⟨h1, h2, h3⟩
          simp [h1, h3]
        have hkeyfilter := flatUniq_filter_key db.rewards huniq e t u r0 hr0
        have husedsplit := usedFlat_split db e u t
        rw [hkeyfilter] at husedsplit
        simp only [sumRewards, List.map_cons, List.map_nil, List.sum_cons, List.sum_nil,
          add_zero] at husedsplit
        by_cases hz : amt = 0
        · -- delete the existing flat row
          simp only [hex, reduceIte, if_pos hz]
          refine ⟨by trivial, ?_, ?_, by trivial, by trivial, by trivial, by trivial, by trivial,
            by trivial, by trivial, by trivial, ?_, ?_⟩
          · have herase := sum_filter_eraseFirstReward db.rewards (rewardKey e t u)
              (fun r => r.eventId == e && r.giverId == u) r0 hr0 hq0
            show usedFlat { db with
                rewards := eraseFirstReward db.rewards (rewardKey e t u) } e u +
              usedCat { db with
                rewards := eraseFirstReward db.rewards (rewardKey e t u) } e u =
              othersFlat db e u t + othersCat db e u t + thisTeamCat db e u t + amt
            have h1 : usedFlat { db with
                rewards := eraseFirstReward db.rewards (rewardKey e t u) } e u =
                usedFlat db e u - r0.reward := herase
            have h2 : usedCat { db with
                rewards := eraseFirstReward db.rewards (rewardKey e t u) } e u =
                usedCat db e u := rfl
            rw [h1, h2, usedCat_split db e u t, husedsplit]
            omega
          · -- the bound
            have herase := sum_filter_eraseFirstReward db.rewards (rewardKey e t u)
              (fun r => r.eventId == e && r.giverId == u) r0 hr0 hq0
            have h2 : usedCat { db with
                rewards := eraseFirstReward db.rewards (rewardKey e t u) } e u =
                usedCat db e u := rfl
            show usedFlat { db with
                rewards := eraseFirstReward db.rewards (rewardKey e t u) } e u +
              usedCat { db with
                rewards := eraseFirstReward db.rewards (rewardKey e t u) } e u ≤
              p.virtualReward
            have h1 : usedFlat { db with
                rewards := eraseFirstReward db.rewards (rewardKey e t u) } e u =
                usedFlat db e u - r0.reward := herase
            rw [h1, h2, usedCat_split db e u t, husedsplit]
            omega
          · show (eraseFirstReward db.rewards (rewardKey e t u)).filter (rewardKey e t u) = []
            rw [filter_key_eraseFirstReward, hkeyfilter]
            rfl
          · intro q hd hb
            exact filter_eraseFirstReward_disjoint db.rewards (rewardKey e t u) q hd
        · -- update the existing flat row
          simp only [hex, reduceIte, if_neg hz]
          have hupd := sum_filter_updateFirstReward db.rewards (rewardKey e t u)
            (fun r => r.eventId == e && r.giverId == u) amt r0 hr0 hq0 hqb
          have h2used : usedCat { db with
              rewards := updateFirstReward db.rewards (rewardKey e t u) amt } e u =
              usedCat db e u := rfl
          have h1used : usedFlat { db with
              rewards := updateFirstReward db.rewards (rewardKey e t u) amt } e u =
              usedFlat db e u - r0.reward + amt := hupd
          refine ⟨by trivial, ?_, ?_, by trivial, by trivial, by trivial, by trivial, by trivial,
            by trivial, by trivial, by trivial, ?_, ?_⟩
          · rw [h1used, h2used, usedCat_split db e u t, husedsplit]
            omega
          · rw [h1used, h2used, usedCat_split db e u t, husedsplit]
            omega
          · show (updateFirstReward db.rewards (rewardKey e t u) amt).filter
              (rewardKey e t u) = [TeamReward.mk e t u amt]
            rw [filter_key_updateFirstReward db.rewards e t u amt r0 hr0, hkeyfilter]
            rcases (rewardKey_iff e t u r0).mp hk0 with ⟨h1, h2, h3⟩
            cases r0
            simp_all
          · intro q hd hb
            exact filter_updateFirstReward_disjoint db.rewards (rewardKey e t u) q amt hd
              (fun r x => rfl)
      · -- no existing flat row
        have hnone : db.rewards.find? (rewardKey e t u) = none := by
          rcases ho : db.rewards.find? (rewardKey e t u) with _ | r0
          · rfl
          · rw [ho] at hex
            simp at hex
        have hkeynil := filter_of_find?_none db.rewards (rewardKey e t u) hnone
        have husedsplit := usedFlat_split db e u t
        rw [hkeynil] at husedsplit
        simp only [sumRewards, List.map_nil, List.sum_nil, zero_add] at husedsplit
        have hex0 : (db.rewards.find? (rewardKey e t u)).isSome = false := by
          simpa using hex
        by_cases hpos : 0 < amt
        · -- create the flat row
          simp only [hex0, reduceIte, if_pos hpos]
          have happend := sum_filter_append_reward db.rewards
            (fun r => r.eventId == e && r.giverId == u) (TeamReward.mk e t u amt)
          have hqrow : ((TeamReward.mk e t u amt).eventId == e &&
              (TeamReward.mk e t u amt).giverId == u) = true := by simp
          rw [hqrow] at happend
          simp only [reduceIte, if_pos] at happend
          have h1used : usedFlat { db with
              rewards := db.rewards ++ [TeamReward.mk e t u amt] } e u =
              usedFlat db e u + amt := happend
          have h2used : usedCat { db with
              rewards := db.rewards ++ [TeamReward.mk e t u amt] } e u =
              usedCat db e u := rfl
          refine ⟨by trivial, ?_, ?_, by trivial, by trivial, by trivial, by trivial, by trivial,
            by trivial, by trivial, by trivial, ?_, ?_⟩
          · show usedFlat { db with
                rewards := db.rewards ++ [TeamReward.mk e t u amt] } e u +
              usedCat { db with
                rewards := db.rewards ++ [TeamReward.mk e t u amt] } e u =
              othersFlat db e u t + othersCat db e u t + thisTeamCat db e u t + amt
            rw [h1used, h2used, usedCat_split db e u t, husedsplit]
            omega
          · show usedFlat { db with
                rewards := db.rewards ++ [TeamReward.mk e t u amt] } e u +
              usedCat { db with
                rewards := db.rewards ++ [TeamReward.mk e t u amt] } e u ≤
              p.virtualReward
            rw [h1used, h2used, usedCat_split db e u t, husedsplit]
            omega
          · show (db.rewards ++ [TeamReward.mk e t u amt]).filter (rewardKey e t u) =
              if amt = 0 then [] else [TeamReward.mk e t u amt]
            rw [List.filter_append, hkeynil, if_neg (by omega)]
            simp [rewardKey]
          · intro q hd hb
            show (db.rewards ++ [TeamReward.mk e t u amt]).filter q = db.rewards.filter q
            rw [List.filter_append]
            have : q (TeamReward.mk e t u amt) = false := hd _ (by simp [rewardKey])
            simp [this]
        · -- nothing to write
          have hz : amt = 0 := by omega
          simp only [hex0, reduceIte, if_neg hpos]
          refine ⟨by trivial, ?_, ?_, by trivial, by trivial, by trivial, by trivial, by trivial,
            by trivial, by trivial, by trivial, ?_, ?_⟩
          · show usedFlat db e u + usedCat db e u =
              othersFlat db e u t + othersCat db e u t + thisTeamCat db e u t + amt
            rw [usedCat_split db e u t, husedsplit]
            omega
          · show usedFlat db e u + usedCat db e u ≤ p.virtualReward
            rw [usedCat_split db e u t, husedsplit]
            omega
          · show db.rewards.filter (rewardKey e t u) =
              if amt = 0 then [] else [TeamReward.mk e t u amt]
            rw [hkeynil, if_pos hz]
          · intro q hd hb
            rfl

theorem filter_filter_eq {α : Type} (l : List α) (p q : α → Bool) :
    (l.filter p).filter q = l.filter (fun a => p a && q a) := by
  induction l with
  | nil => rfl
  | cons a rest ih =>
    by_cases hp : p a = true
    · by_cases hq : q a = true
      · simp [List.filter_cons, hp, hq, ih]
      · simp [List.filter_cons, hp, hq, ih]
    · simp [List.filter_cons, hp, ih]

/-- Inversion of a successful categorized give transaction. -/
theorem giveTx_cat_ok (db : DB) (p : Participant) (event : EventRec) (e : String)
    (body : GiveVrBody) (cats : List CatEntry) (hcats : body.categories = some cats)
    (L U : Int) (db' : DB) (h : giveTx db p event e body = .ok (L, U, db')) :
    L = p.virtualReward ∧
    U = othersFlat db e p.userId body.projectId + othersCat db e p.userId body.projectId +
      ((normalizeCategories cats).map Prod.snd).sum ∧
    U ≤ p.virtualReward ∧
    U = usedFlat db' e p.userId + usedCat db' e p.userId ∧
    db'.events = db.events ∧ db'.participants = db.participants ∧ db'.teams = db.teams ∧
    db'.vrCategories = db.vrCategories ∧ db'.specialRewards = db.specialRewards ∧
    db'.votes = db.votes ∧
    db'.rewards = db.rewards.filter (fun r => !(rewardKey e body.projectId p.userId r)) ∧
    db'.catRewards =
      db.catRewards.filter (fun c => !(catKey e body.projectId p.userId c)) ++
        (categoryRows cats).map
          (fun q => TeamRewardCategory.mk e body.projectId p.userId q.1 q.2) := by
  unfold giveTx at h
  rw [hcats] at h
  simp only [Option.isSome_some, Option.getD_some, reduceIte] at h
  set t := body.projectId with ht
  set u := p.userId with hu
  set total : Int := ((normalizeCategories cats).map Prod.snd).sum with htotal
  split at h
  · exact absurd h (by simp)
  · split at h
    · exact absurd h (by simp)
    · split at h
      · exact absurd h (by simp)
      · rename_i hlen hcap hbal
        simp only [Except.ok.injEq, Prod.mk.injEq] at h
        obtain ⟨hL, hU, hdb⟩ := h
        subst hdb
        subst hL
        subst hU
        set B := (categoryRows cats).map
          (fun q => TeamRewardCategory.mk e t u q.1 q.2) with hB
        have hofl : usedFlat { db with
            rewards := db.rewards.filter (fun r => !(rewardKey e t u r)),
            catRewards := db.catRewards.filter (fun c => !(catKey e t u c)) ++ B } e u =
            othersFlat db e u t := by
          show sumRewards (((db.rewards.filter (fun r => !(rewardKey e t u r)))).filter
            (fun r => r.eventId == e && r.giverId == u)) = othersFlat db e u t
          rw [filter_filter_eq]
          unfold othersFlat
          apply congrArg
          apply List.filter_congr
          intro r _
          unfold rewardKey
          cases hr1 : r.eventId == e <;> cases hr2 : r.teamId == t <;>
            cases hr3 : r.giverId == u <;> rfl
        have hBall : ∀ b ∈ B, (b.eventId == e && b.giverId == u) = true := by
          intro b hb
          rcases List.mem_map.mp hb with ⟨q, _, rfl⟩
          simp
        have hBsum : sumCatRewards B = total := by
          rw [hB]
          unfold sumCatRewards
          rw [List.map_map]
          have : (TeamRewardCategory.amount ∘ fun q =>
              TeamRewardCategory.mk e t u q.1 q.2) = Prod.snd := rfl
          rw [this, htotal]
          exact sum_filter_pos_eq (normalizeCategories cats) (normalizeCategories_nonneg cats)
        have hocat : usedCat { db with
            rewards := db.rewards.filter (fun r => !(rewardKey e t u r)),
            catRewards := db.catRewards.filter (fun c => !(catKey e t u c)) ++ B } e u =
            othersCat db e u t + total := by
          show sumCatRewards (((db.catRewards.filter (fun c => !(catKey e t u c))) ++ B).filter
            (fun c => c.eventId == e && c.giverId == u)) = othersCat db e u t + total
          rw [List.filter_append]
          have h1 : (db.catRewards.filter (fun c => !(catKey e t u c))).filter
              (fun c => c.eventId == e && c.giverId == u) =
              db.catRewards.filter
                (fun c => c.eventId == e && c.giverId == u && !(c.teamId == t)) := by
            rw [filter_filter_eq]
            apply List.filter_congr
            intro c _
            unfold catKey
            cases hr1 : c.eventId == e <;> cases hr2 : c.teamId == t <;>
              cases hr3 : c.giverId == u <;> rfl
          have h2 : B.filter (fun c => c.eventId == e && c.giverId == u) = B :=
            List.filter_eq_self.mpr hBall
          rw [h1, h2]
          unfold sumCatRewards othersCat
          rw [List.map_append, List.sum_append]
          rw [hBsum.symm]
          rfl
        refine ⟨by trivial, ?_, ?_, ?_, by trivial, by trivial, by trivial, by trivial,
          by trivial, by trivial, by trivial, by trivial⟩
        · show usedFlat { db with
              rewards := db.rewards.filter (fun r => !(rewardKey e t u r)),
              catRewards := db.catRewards.filter (fun c => !(catKey e t u c)) ++ B } e u +
            usedCat { db with
              rewards := db.rewards.filter (fun r => !(rewardKey e t u r)),
              catRewards := db.catRewards.filter (fun c => !(catKey e t u c)) ++ B } e u =
            othersFlat db e u t + othersCat db e u t + total
          rw [hofl, hocat]
          omega
        · show usedFlat { db with
              rewards := db.rewards.filter (fun r => !(rewardKey e t u r)),
              catRewards := db.catRewards.filter (fun c => !(catKey e t u c)) ++ B } e u +
            usedCat { db with
              rewards := db.rewards.filter (fun r => !(rewardKey e t u r)),
              catRewards := db.catRewards.filter (fun c => !(catKey e t u c)) ++ B } e u ≤
            p.virtualReward
          rw [hofl, hocat]
          omega
        · rfl

theorem filter_negkey_eq {α : Type} (l : List α) (key q : α → Bool)
    (hd : ∀ r, q r = true → key r = false) :
    (l.filter (fun r => !(key r))).filter q = l.filter q := by
  rw [filter_filter_eq]
  apply List.filter_congr
  intro r _
  by_cases hq : q r = true
  · rw [hq, hd r hq]
    rfl
  · have hq0 : q r = false := by simpa using hq
    rw [hq0]
    simp

theorem sumRewards_filter_filter_le (l : List TeamReward) (pr q : TeamReward → Bool)
    (hn : ∀ r ∈ l, 0 ≤ r.reward) :
    sumRewards ((l.filter pr).filter q) ≤ sumRewards (l.filter q) := by
  rw [filter_filter_eq]
  induction l with
  | nil => simp [sumRewards]
  | cons r rest ih =>
    have hr := hn r (List.mem_cons_self r rest)
    have ih2 := ih (fun x hx => hn x (List.mem_cons_of_mem r hx))
    simp only [sumRewards] at ih2 ⊢
    by_cases hq : q r = true
    · by_cases hpr : pr r = true
      · simp [List.filter_cons, hq, hpr]
        omega
      · simp [List.filter_cons, hq, hpr]
        omega
    · simp [List.filter_cons, hq, Bool.and_eq_true]
      omega

theorem sumCatRewards_filter_filter_le (l : List TeamRewardCategory)
    (pr q : TeamRewardCategory → Bool) (hn : ∀ r ∈ l, 0 ≤ r.amount) :
    sumCatRewards ((l.filter pr).filter q) ≤ sumCatRewards (l.filter q) := by
  rw [filter_filter_eq]
  induction l with
  | nil => simp [sumCatRewards]
  | cons r rest ih =>
    have hr := hn r (List.mem_cons_self r rest)
    have ih2 := ih (fun x hx => hn x (List.mem_cons_of_mem r hx))
    simp only [sumCatRewards] at ih2 ⊢
    by_cases hq : q r = true
    · by_cases hpr : pr r = true
      · simp [List.filter_cons, hq, hpr]
        omega
      · simp [List.filter_cons, hq, hpr]
        omega
    · simp [List.filter_cons, hq, Bool.and_eq_true]
      omega

/-- The give-vr handler either leaves the state untouched (validation
failure or transaction rollback) or commits a successful transaction. -/
theorem giveVr_cases (db : DB) (userId eventId : String) (body : GiveVrBody) (now : Int)
    (resp : VrResp) (db2 : DB) (h : giveVr db userId eventId body now = (resp, db2)) :
    db2 = db ∨
    ∃ p event L U,
      db.participants.find? (fun q => q.eventId == eventId && q.userId == userId &&
        (q.eventGroup == .GUEST || q.eventGroup == .COMMITTEE)) = some p ∧
      db.events.find? (fun ev => ev.id == eventId) = some event ∧
      eventActive event now = true ∧
      giveTx db p event eventId body = .ok (L, U, db2) ∧
      resp = { message := "VR updated successfully", status := 200, totalLimit := some L,
               totalUsed := some U, newBalance := none } := by
  unfold giveVr at h
  by_cases h0 : eventId = ""
  · rw [if_pos h0] at h
    left
    exact (Prod.mk.injEq .. |>.mp h).2.symm
  · rw [if_neg h0] at h
    rcases hf : db.participants.find? (fun q => q.eventId == eventId && q.userId == userId &&
        (q.eventGroup == .GUEST || q.eventGroup == .COMMITTEE)) with _ | p
    · simp only [hf] at h
      left
      exact (Prod.mk.injEq .. |>.mp h).2.symm
    · simp only [hf] at h
      rcases hev : db.events.find? (fun ev => ev.id == eventId) with _ | event
      · simp only [hev] at h
        left
        exact (Prod.mk.injEq .. |>.mp h).2.symm
      · simp only [hev] at h
        by_cases hact : eventActive event now = true
        · simp only [hact, Bool.not_true, Bool.false_eq_true, reduceIte] at h
          rcases htm : db.teams.find? (fun t => t.id == body.projectId &&
              t.eventId == eventId) with _ | tm
          · simp only [htm] at h
            left
            exact (Prod.mk.injEq .. |>.mp h).2.symm
          · simp only [htm] at h
            rcases htx : giveTx db p event eventId body with msg | res
            · simp only [htx] at h
              left
              exact (Prod.mk.injEq .. |>.mp h).2.symm
            · rcases res with ⟨L, U, dbX⟩
              simp only [htx] at h
              rcases (Prod.mk.injEq .. |>.mp h) with ⟨hresp, hdb⟩
              right
              exact ⟨p, event, L, U, hf, hev, hact, by rw [htx, hdb], hresp.symm⟩
        · have hact0 : eventActive event now = false := by simpa using hact
          simp only [hact0, Bool.not_false, reduceIte] at h
          left
          exact (Prod.mk.injEq .. |>.mp h).2.symm

/-- The reset-vr handler either leaves the state untouched or deletes
exactly the flat and categorized rows of the found giver for the
requested team. -/
theorem resetVr_cases (db : DB) (userId eventId projectId : String) (now : Int)
    (resp : VrResp) (db2 : DB) (h : resetVr db userId eventId projectId now = (resp, db2)) :
    db2 = db ∨
    ∃ p, db.participants.find? (fun q => q.eventId == eventId && q.userId == userId &&
        (q.eventGroup == .GUEST || q.eventGroup == .COMMITTEE)) = some p ∧
      db2 = { db with
        rewards := db.rewards.filter
          (fun r => !(rewardKey eventId projectId p.userId r)),
        catRewards := db.catRewards.filter
          (fun c => !(catKey eventId projectId p.userId c)) } := by
  unfold resetVr at h
  by_cases h0 : eventId = ""
  · rw [if_pos h0] at h
    left
    exact (Prod.mk.injEq .. |>.mp h).2.symm
  · rw [if_neg h0] at h
    rcases hf : db.participants.find? (fun q => q.eventId == eventId && q.userId == userId &&
        (q.eventGroup == .GUEST || q.eventGroup == .COMMITTEE)) with _ | p
    · simp only [hf] at h
      left
      exact (Prod.mk.injEq .. |>.mp h).2.symm
    · simp only [hf] at h
      rcases hev : db.events.find? (fun ev => ev.id == eventId) with _ | event
      · simp only [hev] at h
        left
        exact (Prod.mk.injEq .. |>.mp h).2.symm
      · simp only [hev] at h
        by_cases hact : eventActive event now = true
        · simp only [hact, Bool.not_true, Bool.false_eq_true, reduceIte] at h
          by_cases hz : sumRewards (db.rewards.filter (rewardKey eventId projectId p.userId)) +
              sumCatRewards (db.catRewards.filter (catKey eventId projectId p.userId)) = 0
          · rw [if_pos hz] at h
            left
            exact (Prod.mk.injEq .. |>.mp h).2.symm
          · rw [if_neg hz] at h
            right
            exact ⟨p, hf, (Prod.mk.injEq .. |>.mp h).2.symm⟩
        · have hact0 : eventActive event now = false := by simpa using hact
          simp only [hact0, Bool.not_false, reduceIte] at h
          left
          exact (Prod.mk.injEq .. |>.mp h).2.symm

/-- A giver's committed VR in an event: flat plus categorized amounts
across all teams. -/
def givenTotal (db : DB) (e u : String) : Int :=
  usedFlat db e u + usedCat db e u

/-- The claimed budget invariant: every GUEST or COMMITTEE participant
has committed no more than their `virtualReward`. -/
def balInv (db : DB) : Prop :=
  ∀ p ∈ db.participants, (p.eventGroup = .GUEST ∨ p.eventGroup = .COMMITTEE) →
    givenTotal db p.eventId p.userId ≤ p.virtualReward

theorem participantsUniq_eq (l : List Participant) (h : participantsUniq l)
    (p q : Participant) (hp : p ∈ l) (hq : q ∈ l) (he : p.eventId = q.eventId)
    (hu : p.userId = q.userId) : p = q := by
  induction l with
  | nil => cases hp
  | cons a rest ih =>
    rcases List.pairwise_cons.mp h with ⟨hrel, hrest⟩
    rcases List.mem_cons.mp hp with rfl | hp'
    · rcases List.mem_cons.mp hq with rfl | hq'
      · rfl
      · exact absurd ⟨he, hu⟩ (hrel q hq')
    · rcases List.mem_cons.mp hq with rfl | hq'
      · exact absurd ⟨he.symm, hu.symm⟩ (hrel p hp')
      · exact ih hrest hp' hq'

/-- Exact result of reset-vr when the giver has nothing on the team:
a 200 no-op carrying only `newBalance`, with the state untouched. -/
theorem resetVr_noop_eq (db : DB) (userId eventId projectId : String) (now : Int)
    (p : Participant) (event : EventRec) (h0 : ¬eventId = "")
    (hf : db.participants.find? (fun q => q.eventId == eventId && q.userId == userId &&
      (q.eventGroup == .GUEST || q.eventGroup == .COMMITTEE)) = some p)
    (hev : db.events.find? (fun ev => ev.id == eventId) = some event)
    (hact : eventActive event now = true)
    (hz : sumRewards (db.rewards.filter (rewardKey eventId projectId p.userId)) +
      sumCatRewards (db.catRewards.filter (catKey eventId projectId p.userId)) = 0) :
    resetVr db userId eventId projectId now =
      ({ message := "No VR to refund", status := 200, totalLimit := none,
         totalUsed := none, newBalance := some p.virtualReward }, db) := by
  unfold resetVr
  rw [if_neg h0]
  simp only [hf, hev, hact, Bool.not_true, Bool.false_eq_true, reduceIte, if_pos hz]

/-- Exact result of reset-vr when the giver has an allocation on the
team: both row kinds for (team, giver) are deleted and the response
carries the `(totalLimit, totalUsed)` snapshot. -/
theorem resetVr_refund_eq (db : DB) (userId eventId projectId : String) (now : Int)
    (p : Participant) (event : EventRec) (h0 : ¬eventId = "")
    (hf : db.participants.find? (fun q => q.eventId == eventId && q.userId == userId &&
      (q.eventGroup == .GUEST || q.eventGroup == .COMMITTEE)) = some p)
    (hev : db.events.find? (fun ev => ev.id == eventId) = some event)
    (hact : eventActive event now = true)
    (hnz : ¬(sumRewards (db.rewards.filter (rewardKey eventId projectId p.userId)) +
      sumCatRewards (db.catRewards.filter (catKey eventId projectId p.userId)) = 0)) :
    resetVr db userId eventId projectId now =
      ({ message := "VR refunded successfully", status := 200,
         totalLimit := some p.virtualReward,
         totalUsed := some (usedFlat { db with
             rewards := db.rewards.filter
               (fun r => !(rewardKey eventId projectId p.userId r)),
             catRewards := db.catRewards.filter
               (fun c => !(catKey eventId projectId p.userId c)) } eventId p.userId +
           usedCat { db with
             rewards := db.rewards.filter
               (fun r => !(rewardKey eventId projectId p.userId r)),
             catRewards := db.catRewards.filter
               (fun c => !(catKey eventId projectId p.userId c)) } eventId p.userId),
         newBalance := none },
       { db with
         rewards := db.rewards.filter
           (fun r => !(rewardKey eventId projectId p.userId r)),
         catRewards := db.catRewards.filter
           (fun c => !(catKey eventId projectId p.userId c)) }) := by
  unfold resetVr
  rw [if_neg h0]
  simp only [hf, hev, hact, Bool.not_true, Bool.false_eq_true, reduceIte, if_neg hnz]

/-- The flat give is rejected with the insufficient-balance error (and
no state change) exactly when committing would push the giver's total
over `virtualReward`. -/
theorem giveVr_insufficient (db : DB) (userId eventId : String) (body : GiveVrBody)
    (now : Int) (a : ℚ) (p : Participant) (event : EventRec) (tm : Team)
    (h0 : ¬eventId = "")
    (hf : db.participants.find? (fun q => q.eventId == eventId && q.userId == userId &&
      (q.eventGroup == .GUEST || q.eventGroup == .COMMITTEE)) = some p)
    (hev : db.events.find? (fun ev => ev.id == eventId) = some event)
    (hact : eventActive event now = true)
    (htm : db.teams.find? (fun t => t.id == body.projectId && t.eventId == eventId) =
      some tm)
    (hcats : body.categories = none) (hamt : body.amount = some a)
    (hcap : capFailure event p.eventGroup (max 0 ⌊a⌋) = false)
    (hover : p.virtualReward < othersFlat db eventId p.userId body.projectId +
      othersCat db eventId p.userId body.projectId +
      thisTeamCat db eventId p.userId body.projectId + max 0 ⌊a⌋) :
    giveVr db userId eventId body now = (VrResp.err "Insufficient VR balance" 400, db) := by
  have htx : giveTx db p event eventId body = .error "Insufficient VR balance" := by
    unfold giveTx
    rw [hcats, hamt]
    simp only [Option.isSome_none, Bool.false_eq_true, reduceIte, hcap, if_pos hover]
  unfold giveVr
  rw [if_neg h0]
  simp only [hf, hev, hact, Bool.not_true, Bool.false_eq_true, reduceIte, htm, htx]
  rw [if_pos (Or.inl trivial)]

theorem catKey_iff (e t u : String) (c : TeamRewardCategory) :
    catKey e t u c = true ↔ (c.eventId = e ∧ c.teamId = t ∧ c.giverId = u) := by
  simp [catKey, Bool.and_eq_true, and_assoc]

theorem giveVr_preserves_balInv (db : DB) (userId eventId : String) (body : GiveVrBody)
    (now : Int) (resp : VrResp) (db2 : DB)
    (hpu : participantsUniq db.participants) (hfu : flatUniq db.rewards)
    (hbal : balInv db) (h : giveVr db userId eventId body now = (resp, db2)) :
    balInv db2 := by
  rcases giveVr_cases db userId eventId body now resp db2 h with rfl |
    ⟨p, event, L, U, hf, hev, hact, htx, hresp⟩
  · exact hbal
  · have hpmem := List.mem_of_find?_eq_some hf
    have hppred := List.find?_some hf
    simp only [Bool.and_eq_true, Bool.or_eq_true, beq_iff_eq, EventGroup.beq_iff] at hppred
    obtain ⟨⟨hpe, hpuid⟩, hprole⟩ := hppred
    intro p' hp' hrole
    have hdisjmk : ¬(p'.eventId = eventId ∧ p'.userId = userId) →
        ∀ r : TeamReward, rewardKey eventId body.projectId p.userId r = true →
        (r.eventId == p'.eventId && r.giverId == p'.userId) = false := by
      intro hsame r hk
      rcases (rewardKey_iff _ _ _ r).mp hk with ⟨h1, _, h3⟩
      have hnot : ¬(eventId = p'.eventId ∧ userId = p'.userId) :=
        fun ⟨x, y⟩ => hsame ⟨x.symm, y.symm⟩
      rw [h1, h3, hpuid]
      cases hb1 : (eventId == p'.eventId)
      · rfl
      · cases hb2 : ((userId : String) == p'.userId)
        · rfl
        · exact absurd ⟨eq_of_beq hb1, eq_of_beq hb2⟩ hnot
    rcases hc : body.categories with _ | cats
    · rcases ha : body.amount with _ | a
      · exfalso
        unfold giveTx at htx
        rw [hc, ha] at htx
        simp only [Option.isSome_none, Bool.false_eq_true, reduceIte] at htx
        exact absurd htx (by simp)
      · obtain ⟨hL, hUval, hUle, hUeq, hcatu, hevs, hparts, hteams, hvrc, hspec, hvotes,
          hkeyrow, hqgen⟩ := giveTx_flat_ok db p event eventId body a hc ha hfu L U db2 htx
        rw [hparts] at hp'
        by_cases hsame : p'.eventId = eventId ∧ p'.userId = userId
        · have hpp : p' = p :=
            participantsUniq_eq db.participants hpu p' p hp' hpmem
              (hsame.1.trans hpe.symm) (hsame.2.trans hpuid.symm)
          rw [hpp, hpe]
          unfold givenTotal
          rw [← hUeq]
          exact hUle
        · have hflat' : usedFlat db2 p'.eventId p'.userId = usedFlat db p'.eventId p'.userId := by
            unfold usedFlat
            rw [hqgen _ (hdisjmk hsame) (fun r x => rfl)]
          have hcat' : usedCat db2 p'.eventId p'.userId = usedCat db p'.eventId p'.userId := by
            unfold usedCat
            rw [hcatu]
          unfold givenTotal
          rw [hflat', hcat']
          exact hbal p' hp' hrole
    · obtain ⟨hL, hUval, hUle, hUeq, hevs, hparts, hteams, hvrc, hspec, hvotes, hrew, hcatr⟩ :=
        giveTx_cat_ok db p event eventId body cats hc L U db2 htx
      rw [hparts] at hp'
      by_cases hsame : p'.eventId = eventId ∧ p'.userId = userId
      · have hpp : p' = p :=
          participantsUniq_eq db.participants hpu p' p hp' hpmem
            (hsame.1.trans hpe.symm) (hsame.2.trans hpuid.symm)
        rw [hpp, hpe]
        unfold givenTotal
        rw [← hUeq]
        exact hUle
      · have hcontra : ∀ r : TeamReward,
            (r.eventId == p'.eventId && r.giverId == p'.userId) = true →
            rewardKey eventId body.projectId p.userId r = false := by
          intro r hq
          by_cases hk : rewardKey eventId body.projectId p.userId r = true
          · rw [hdisjmk hsame r hk] at hq
            cases hq
          · simpa using hk
        have hflat' : usedFlat db2 p'.eventId p'.userId = usedFlat db p'.eventId p'.userId := by
          unfold usedFlat
          rw [hrew]
          exact congrArg sumRewards (filter_negkey_eq db.rewards _ _ hcontra)
        have hcdisj : ∀ c : TeamRewardCategory,
            (c.eventId == p'.eventId && c.giverId == p'.userId) = true →
            catKey eventId body.projectId p.userId c = false := by
          intro c hq
          by_cases hk : catKey eventId body.projectId p.userId c = true
          · exfalso
            rcases (catKey_iff _ _ _ c).mp hk with ⟨h1, _, h3⟩
            have hnot : ¬(eventId = p'.eventId ∧ userId = p'.userId) :=
              fun ⟨x, y⟩ => hsame ⟨x.symm, y.symm⟩
            rw [h1, h3, hpuid] at hq
            rcases Bool.and_eq_true .. |>.mp hq with ⟨hb1, hb2⟩
            exact hnot ⟨eq_of_beq hb1, eq_of_beq hb2⟩
          · simpa using hk
        have hcat' : usedCat db2 p'.eventId p'.userId = usedCat db p'.eventId p'.userId := by
          unfold usedCat
          rw [hcatr, List.filter_append]
          have hBnil : ((categoryRows cats).map (fun q => TeamRewardCategory.mk eventId
              body.projectId p.userId q.1 q.2)).filter
              (fun c => c.eventId == p'.eventId && c.giverId == p'.userId) = [] := by
            rw [List.filter_eq_nil_iff]
            intro c hc2 hq
            rcases List.mem_map.mp hc2 with ⟨q, _, rfl⟩
            have hk : catKey eventId body.projectId p.userId
                (TeamRewardCategory.mk eventId body.projectId p.userId q.1 q.2) = true := by
              simp [catKey]
            rw [hcdisj _ hq] at hk
            cases hk
          rw [hBnil, List.append_nil]
          exact congrArg sumCatRewards (filter_negkey_eq db.catRewards _ _ hcdisj)
        unfold givenTotal
        rw [hflat', hcat']
        exact hbal p' hp' hrole

theorem resetVr_preserves_balInv (db : DB) (userId eventId projectId : String)
    (now : Int) (resp : VrResp) (db2 : DB) (hnn : nonnegAmounts db) (hbal : balInv db)
    (h : resetVr db userId eventId projectId now = (resp, db2)) : balInv db2 := by
  rcases resetVr_cases db userId eventId projectId now resp db2 h with rfl | ⟨p, hf, rfl⟩
  · exact hbal
  · intro p' hp' hrole
    have hp2 : p' ∈ db.participants := hp'
    have h1 : usedFlat { db with
        rewards := db.rewards.filter
          (fun r => !(rewardKey eventId projectId p.userId r)),
        catRewards := db.catRewards.filter
          (fun c => !(catKey eventId projectId p.userId c)) } p'.eventId p'.userId ≤
        usedFlat db p'.eventId p'.userId :=
      sumRewards_filter_filter_le db.rewards _ _ hnn.1
    have h2 : usedCat { db with
        rewards := db.rewards.filter
          (fun r => !(rewardKey eventId projectId p.userId r)),
        catRewards := db.catRewards.filter
          (fun c => !(catKey eventId projectId p.userId c)) } p'.eventId p'.userId ≤
        usedCat db p'.eventId p'.userId :=
      sumCatRewards_filter_filter_le db.catRewards _ _ hnn.2
    have h3 := hbal p' hp2 hrole
    unfold givenTotal at h3 ⊢
    omega

instance (l : List Participant) : Decidable (participantsUniq l) := by
  unfold participantsUniq
  infer_instance

instance (l : List TeamReward) : Decidable (flatUniq l) := by
  unfold flatUniq
  infer_instance

instance (l : List SpecialRewardVote) : Decidable (votesUniq l) := by
  unfold votesUniq
  infer_instance

instance (db : DB) : Decidable (nonnegAmounts db) := by
  unfold nonnegAmounts
  infer_instance

instance (db : DB) : Decidable (balInv db) := by
  unfold balInv
  infer_instance

/-! ## Concrete fixtures used by counterexamples and witnesses -/

/-- An event with active window [0, 10] and budget 100 for both roles. -/
def evBase : EventRec :=
  ⟨"e", some 0, some 10, some 100, some 100, false, none, none⟩

/-- A guest participant of `evBase` with the full budget 100. -/
def guestBase : Participant :=
  ⟨"p1", "e", "u", .GUEST, false, none, 100⟩

/-- The base state: one event, one guest, two teams, no allocations. -/
def dbBase : DB :=
  ⟨[evBase], [guestBase], [⟨"tA", "e"⟩, ⟨"tB", "e"⟩], [], [], [], [], []⟩

/-- The flat give body for team tA and amount 60. -/
def body60A : GiveVrBody := ⟨"tA", some 60, none⟩

/-- C1 (corrected): the budget bound `givenTotal ≤ virtualReward` is
preserved by every give and reset call (under the schema uniqueness of
participant and flat-reward keys, and non-negative stored amounts), and
a flat give whose commit would break the bound is rejected with the
insufficient-balance error and no state change.  The original claim
also covered role changes and event budget updates; those can break
the bound (see the counterexample) and are excluded here. -/
theorem vr_budget_invariant_ledger_ops :
    (∀ db userId eventId body now resp db2,
       participantsUniq db.participants → flatUniq db.rewards → balInv db →
       giveVr db userId eventId body now = (resp, db2) → balInv db2) ∧
    (∀ db userId eventId projectId now resp db2,
       nonnegAmounts db → balInv db →
       resetVr db userId eventId projectId now = (resp, db2) → balInv db2) ∧
    (∀ db userId eventId body now a p event tm,
       ¬eventId = "" →
       db.participants.find? (fun q => q.eventId == eventId && q.userId == userId &&
         (q.eventGroup == .GUEST || q.eventGroup == .COMMITTEE)) = some p →
       db.events.find? (fun ev => ev.id == eventId) = some event →
       eventActive event now = true →
       db.teams.find? (fun t => t.id == body.projectId && t.eventId == eventId) = some tm →
       body.categories = none → body.amount = some a →
       capFailure event p.eventGroup (max 0 ⌊a⌋) = false →
       p.virtualReward < othersFlat db eventId p.userId body.projectId +
         othersCat db eventId p.userId body.projectId +
         thisTeamCat db eventId p.userId body.projectId + max 0 ⌊a⌋ →
       giveVr db userId eventId body now =
         (VrResp.err "Insufficient VR balance" 400, db)) :=
  ⟨fun db userId eventId body now resp db2 =>
      giveVr_preserves_balInv db userId eventId body now resp db2,
   fun db userId eventId projectId now resp db2 =>
      resetVr_preserves_balInv db userId eventId projectId now resp db2,
   fun db userId eventId body now a p event tm =>
      giveVr_insufficient db userId eventId body now a p event tm⟩

/-- C1 witness: the preservation statement applied to the base state
and a successful flat give of 60. -/
theorem vr_budget_invariant_ledger_ops_witness :
    participantsUniq dbBase.participants ∧ flatUniq dbBase.rewards ∧ balInv dbBase ∧
    balInv (giveVr dbBase "u" "e" body60A 1).2 := by
  refine ⟨by decide, by decide, by decide, ?_⟩
  exact vr_budget_invariant_ledger_ops.1 dbBase "u" "e" body60A 1
    (giveVr dbBase "u" "e" body60A 1).1 (giveVr dbBase "u" "e" body60A 1).2
    (by decide) (by decide) (by decide) rfl

/-- C1 counterexample: from the base state a give of 60 succeeds and
keeps the bound, but the event budget update that lowers the GUEST
budget to 0 leaves the 60 already committed in place while dropping
`virtualReward` to 0, violating the claimed invariant. -/
theorem vr_budget_update_counterexample :
    balInv dbBase ∧
    (giveVr dbBase "u" "e" body60A 1).1.status = 200 ∧
    balInv (giveVr dbBase "u" "e" body60A 1).2 ∧
    ¬ balInv (syncEventBudget (giveVr dbBase "u" "e" body60A 1).2 "e" (some 0) none) ∧
    givenTotal (syncEventBudget (giveVr dbBase "u" "e" body60A 1).2 "e" (some 0) none)
      "e" "u" = 60 := by
  refine ⟨by decide, by decide, by decide, by decide, by decide⟩

/-- In flat mode the transaction body never writes the category table. -/
theorem giveTx_flat_catRewards (db : DB) (p : Participant) (event : EventRec)
    (e : String) (body : GiveVrBody) (hcats : body.categories = none)
    (L U : Int) (db' : DB) (h : giveTx db p event e body = .ok (L, U, db')) :
    db'.catRewards = db.catRewards := by
  rcases ha : body.amount with _ | a
  · unfold giveTx at h
    rw [hcats, ha] at h
    simp only [Option.isSome_none, Bool.false_eq_true, reduceIte] at h
    exact absurd h (by simp)
  · unfold giveTx at h
    rw [hcats, ha] at h
    simp only [Option.isSome_none, Bool.false_eq_true, reduceIte] at h
    split at h
    · exact absurd h (by simp)
    · split at h
      · exact absurd h (by simp)
      · simp only [Except.ok.injEq, Prod.mk.injEq] at h
        rw [← h.2.2]

/-- C2 (corrected): a flat-mode give call never touches the
`TeamRewardCategory` table — in particular pre-existing categorized
rows of the same (event, team, giver) survive a successful flat give
(their total is what the balance check adds as `thisTeamCategoryRewards`),
so flat and categorized rows can coexist for one (team, giver).  The
original claim said flat mode removes the categorized rows. -/
theorem flat_give_keeps_category_rows (db : DB) (userId eventId : String)
    (body : GiveVrBody) (now : Int) (hcats : body.categories = none) :
    (giveVr db userId eventId body now).2.catRewards = db.catRewards := by
  rcases h : giveVr db userId eventId body now with ⟨resp, db2⟩
  show db2.catRewards = db.catRewards
  rcases giveVr_cases db userId eventId body now resp db2 h with rfl |
    ⟨p, event, L, U, hf, hev, hact, htx, hresp⟩
  · rfl
  · exact giveTx_flat_catRewards db p event eventId body hcats L U db2 htx

/-- C2 witness: the flat give of 60 on the base state leaves the (empty)
category table unchanged. -/
theorem flat_give_keeps_category_rows_witness :
    body60A.categories = none ∧
    (giveVr dbBase "u" "e" body60A 1).2.catRewards = dbBase.catRewards :=
  ⟨rfl, flat_give_keeps_category_rows dbBase "u" "e" body60A 1 rfl⟩

/-- A state with one categorized row of 10 from the guest to team tA. -/
def dbWithCat : DB :=
  { dbBase with vrCategories := [⟨"c1", "e"⟩],
                catRewards := [⟨"e", "tA", "u", "c1", 10⟩] }

/-- C2 counterexample: from `dbWithCat` a flat give of 5 to team tA
succeeds (status 200), yet the categorized row for the same
(event, team, giver) is still present next to the new flat row. -/
theorem flat_give_category_rows_counterexample :
    (giveVr dbWithCat "u" "e" (GiveVrBody.mk "tA" (some 5) none) 1).1.status = 200 ∧
    (giveVr dbWithCat "u" "e" (GiveVrBody.mk "tA" (some 5) none) 1).2.catRewards =
      [⟨"e", "tA", "u", "c1", 10⟩] ∧
    (giveVr dbWithCat "u" "e" (GiveVrBody.mk "tA" (some 5) none) 1).2.rewards =
      [⟨"e", "tA", "u", 5⟩] := by
  refine ⟨by decide, by decide, by decide⟩

/-- C9 (corrected): reset deletes both the flat and the categorized rows
of (team, giver) and returns the `(totalLimit, totalUsed)` snapshot;
when nothing exists for (team, giver) it returns a 200 no-op response
that changes nothing — but that response carries only `newBalance`
(the unchanged budget), not the `(totalLimit, totalUsed)` pair the
original claim promised. -/
theorem reset_vr_results :
    (∀ db userId eventId projectId now p event,
       ¬eventId = "" →
       db.participants.find? (fun q => q.eventId == eventId && q.userId == userId &&
         (q.eventGroup == .GUEST || q.eventGroup == .COMMITTEE)) = some p →
       db.events.find? (fun ev => ev.id == eventId) = some event →
       eventActive event now = true →
       sumRewards (db.rewards.filter (rewardKey eventId projectId p.userId)) +
         sumCatRewards (db.catRewards.filter (catKey eventId projectId p.userId)) = 0 →
       resetVr db userId eventId projectId now =
         ({ message := "No VR to refund", status := 200, totalLimit := none,
            totalUsed := none, newBalance := some p.virtualReward }, db)) ∧
    (∀ db userId eventId projectId now p event,
       ¬eventId = "" →
       db.participants.find? (fun q => q.eventId == eventId && q.userId == userId &&
         (q.eventGroup == .GUEST || q.eventGroup == .COMMITTEE)) = some p →
       db.events.find? (fun ev => ev.id == eventId) = some event →
       eventActive event now = true →
       ¬(sumRewards (db.rewards.filter (rewardKey eventId projectId p.userId)) +
         sumCatRewards (db.catRewards.filter (catKey eventId projectId p.userId)) = 0) →
       resetVr db userId eventId projectId now =
         ({ message := "VR refunded successfully", status := 200,
            totalLimit := some p.virtualReward,
            totalUsed := some (usedFlat { db with
                rewards := db.rewards.filter
                  (fun r => !(rewardKey eventId projectId p.userId r)),
                catRewards := db.catRewards.filter
                  (fun c => !(catKey eventId projectId p.userId c)) } eventId p.userId +
              usedCat { db with
                rewards := db.rewards.filter
                  (fun r => !(rewardKey eventId projectId p.userId r)),
                catRewards := db.catRewards.filter
                  (fun c => !(catKey eventId projectId p.userId c)) } eventId p.userId),
            newBalance := none },
          { db with
            rewards := db.rewards.filter
              (fun r => !(rewardKey eventId projectId p.userId r)),
            catRewards := db.catRewards.filter
              (fun c => !(catKey eventId projectId p.userId c)) })) :=
  ⟨fun db userId eventId projectId now p event =>
      resetVr_noop_eq db userId eventId projectId now p event,
   fun db userId eventId projectId now p event =>
      resetVr_refund_eq db userId eventId projectId now p event⟩

/-- C9 witness: the no-op branch applied to the base state. -/
theorem reset_vr_results_witness :
    resetVr dbBase "u" "e" "tA" 1 =
      ({ message := "No VR to refund", status := 200, totalLimit := none,
         totalUsed := none, newBalance := some guestBase.virtualReward }, dbBase) :=
  reset_vr_results.1 dbBase "u" "e" "tA" 1 guestBase evBase (by decide) (by decide)
    (by decide) (by decide) (by decide)

/-- C9 counterexample: on the base state (no rows for the pair) reset
succeeds as a no-op but its response has no `totalLimit`/`totalUsed`
fields — it does not carry the snapshot pair the claim describes. -/
theorem reset_noop_counterexample :
    (resetVr dbBase "u" "e" "tA" 1).1.status = 200 ∧
    (resetVr dbBase "u" "e" "tA" 1).1.message = "No VR to refund" ∧
    (resetVr dbBase "u" "e" "tA" 1).1.totalLimit = none ∧
    (resetVr dbBase "u" "e" "tA" 1).1.totalUsed = none ∧
    (resetVr dbBase "u" "e" "tA" 1).1.newBalance = some 100 ∧
    (resetVr dbBase "u" "e" "tA" 1).2 = dbBase := by
  refine ⟨by decide, by decide, by decide, by decide, by decide, by decide⟩

/-! ## Round-trip machinery (claim C8) -/

/-- The flat-row write of the give transaction (upsert; delete on 0),
as one function of the reward list.  Definitionally equal to the
`let rewards := ...` of `giveTx`'s flat branch. -/
def flatWrite (l : List TeamReward) (e t u : String) (amt : Int) : List TeamReward :=
  if (l.find? (rewardKey e t u)).isSome then
    if amt = 0 then eraseFirstReward l (rewardKey e t u)
    else updateFirstReward l (rewardKey e t u) amt
  else if 0 < amt then l ++ [TeamReward.mk e t u amt]
  else l

theorem flatUniq_filter (l : List TeamReward) (h : flatUniq l) (p : TeamReward → Bool) :
    flatUniq (l.filter p) :=
  h.sublist (List.filter_sublist l)

theorem flatWrite_filter_key (l : List TeamReward) (e t u : String) (amt : Int)
    (hnn : 0 ≤ amt) (huniq : flatUniq l) :
    (flatWrite l e t u amt).filter (rewardKey e t u) =
      if amt = 0 then [] else [TeamReward.mk e t u amt] := by
  unfold flatWrite
  by_cases hex : (l.find? (rewardKey e t u)).isSome = true
  · rcases Option.isSome_iff_exists.mp hex with ⟨r0, hr0⟩
    have hk0 : rewardKey e t u r0 = true := List.find?_some hr0
    have hkeyfilter := flatUniq_filter_key l huniq e t u r0 hr0
    rw [if_pos hex]
    by_cases hz : amt = 0
    · rw [if_pos hz, if_pos hz, filter_key_eraseFirstReward, hkeyfilter]
      rfl
    · rw [if_neg hz, if_neg hz, filter_key_updateFirstReward l e t u amt r0 hr0, hkeyfilter]
      rcases (rewardKey_iff e t u r0).mp hk0 with ⟨h1, h2, h3⟩
      cases r0
      simp_all
  · have hnone : l.find? (rewardKey e t u) = none := by
      rcases ho : l.find? (rewardKey e t u) with _ | r0
      · rfl
      · rw [ho] at hex
        simp at hex
    have hkeynil := filter_of_find?_none l (rewardKey e t u) hnone
    rw [if_neg hex]
    by_cases hpos : 0 < amt
    · rw [if_pos hpos, if_neg (by omega), List.filter_append, hkeynil]
      simp [rewardKey]
    · rw [if_neg hpos, if_pos (by omega : amt = 0)]
      exact hkeynil

theorem flatWrite_filter_disjoint (l : List TeamReward) (e t u : String) (amt : Int)
    (q : TeamReward → Bool) (hd : ∀ r, rewardKey e t u r = true → q r = false)
    (hb : ∀ r x, q { r with reward := x } = q r) :
    (flatWrite l e t u amt).filter q = l.filter q := by
  unfold flatWrite
  by_cases hex : (l.find? (rewardKey e t u)).isSome = true
  · rw [if_pos hex]
    by_cases hz : amt = 0
    · rw [if_pos hz]
      exact filter_eraseFirstReward_disjoint l (rewardKey e t u) q hd
    · rw [if_neg hz]
      exact filter_updateFirstReward_disjoint l (rewardKey e t u) q amt hd (fun r x => rfl)
  · rw [if_neg hex]
    by_cases hpos : 0 < amt
    · rw [if_pos hpos, List.filter_append]
      have : q (TeamReward.mk e t u amt) = false := hd _ (by simp [rewardKey])
      simp [this]
    · rw [if_neg hpos]

/-- Forward evaluation of a successful flat give: with all gates passed
and the balance check satisfied, the handler returns the 200 response
with the recomputed totals and writes exactly the flat upsert. -/
theorem giveVr_flat_ok_eq (db : DB) (userId eventId t : String) (now : Int) (av : ℚ)
    (p : Participant) (event : EventRec) (tm : Team)
    (h0 : ¬eventId = "")
    (hf : db.participants.find? (fun q => q.eventId == eventId && q.userId == userId &&
      (q.eventGroup == .GUEST || q.eventGroup == .COMMITTEE)) = some p)
    (hev : db.events.find? (fun ev => ev.id == eventId) = some event)
    (hact : eventActive event now = true)
    (htm : db.teams.find? (fun x => x.id == t && x.eventId == eventId) = some tm)
    (hcap : capFailure event p.eventGroup (max 0 ⌊av⌋) = false)
    (hnover : ¬(p.virtualReward < othersFlat db eventId p.userId t +
      othersCat db eventId p.userId t + thisTeamCat db eventId p.userId t + max 0 ⌊av⌋)) :
    giveVr db userId eventId ⟨t, some av, none⟩ now =
      ({ message := "VR updated successfully", status := 200,
         totalLimit := some p.virtualReward,
         totalUsed := some (usedFlat
             { db with rewards := (flatWrite db.rewards eventId t p.userId (max 0 ⌊av⌋)) }
             eventId p.userId +
           usedCat
             { db with rewards := (flatWrite db.rewards eventId t p.userId (max 0 ⌊av⌋)) }
             eventId p.userId),
         newBalance := none },
       { db with rewards := (flatWrite db.rewards eventId t p.userId (max 0 ⌊av⌋)) }) := by
  have htx : giveTx db p event eventId ⟨t, some av, none⟩ =
      .ok (p.virtualReward,
        usedFlat
          { db with rewards := (flatWrite db.rewards eventId t p.userId (max 0 ⌊av⌋)) }
          eventId p.userId +
        usedCat
          { db with rewards := (flatWrite db.rewards eventId t p.userId (max 0 ⌊av⌋)) }
          eventId p.userId,
        { db with rewards := (flatWrite db.rewards eventId t p.userId (max 0 ⌊av⌋)) }) := by
    unfold giveTx
    simp only [Option.isSome_none, Bool.false_eq_true, reduceIte, hcap, if_neg hnover]
    rfl
  unfold giveVr
  rw [if_neg h0]
  simp only [hf, hev, hact, Bool.not_true, Bool.false_eq_true, reduceIte, htm, htx]

theorem othersPred_key_false (e t u : String) (r : TeamReward)
    (h : (r.eventId == e && r.giverId == u && !(r.teamId == t)) = true) :
    rewardKey e t u r = false := by
  rcases (Bool.and_eq_true ..).mp h with ⟨h12, h3⟩
  rcases (Bool.and_eq_true ..).mp h12 with ⟨h1, h2⟩
  have h4 : (r.teamId == t) = false := by simpa using h3
  unfold rewardKey
  rw [h4]
  simp

theorem giverPred_key_team (e t u : String) (r : TeamReward)
    (h : (r.eventId == e && r.giverId == u) = true) :
    rewardKey e t u r = (r.teamId == t) := by
  rcases (Bool.and_eq_true ..).mp h with ⟨h1, h2⟩
  unfold rewardKey
  rw [h1, h2]
  cases r.teamId == t <;> rfl

/-- The giver's flat total over rows with the (event, team, giver)-key
removed equals the other-teams total. -/
theorem sum_negkey_giver (l : List TeamReward) (e t u : String) :
    sumRewards ((l.filter (fun r => !(rewardKey e t u r))).filter
      (fun r => r.eventId == e && r.giverId == u)) =
    sumRewards (l.filter (fun r => r.eventId == e && r.giverId == u && !(r.teamId == t))) := by
  rw [filter_filter_eq]
  apply congrArg
  apply List.filter_congr
  intro r _
  unfold rewardKey
  cases hr1 : r.eventId == e <;> cases hr2 : r.teamId == t <;>
    cases hr3 : r.giverId == u <;> rfl

/-- Removing key rows leaves the other-teams flat total unchanged. -/
theorem sum_negkey_others (l : List TeamReward) (e t u : String) :
    sumRewards ((l.filter (fun r => !(rewardKey e t u r))).filter
      (fun r => r.eventId == e && r.giverId == u && !(r.teamId == t))) =
    sumRewards (l.filter (fun r => r.eventId == e && r.giverId == u && !(r.teamId == t))) := by
  apply congrArg
  exact filter_negkey_eq l _ _ (othersPred_key_false e t u)

/-- C8 (corrected): give, reset, give with the same flat amount
reproduces the first allocation — the responses of the first and third
give coincide, the (team, giver) rows after the third call equal those
after the first, and the reset's totalUsed reflects the removal —
provided the giver holds no categorized rows on the target team
beforehand.  With pre-existing categorized rows on the team the round
trip drops them (reset deletes them and a flat give does not restore
them), so the totals differ; see the counterexample. -/
theorem give_reset_give_round_trip (db : DB) (userId eventId t : String) (now : Int)
    (a : Int) (p : Participant) (event : EventRec) (tm : Team)
    (h0 : ¬eventId = "")
    (hf : db.participants.find? (fun q => q.eventId == eventId && q.userId == userId &&
      (q.eventGroup == .GUEST || q.eventGroup == .COMMITTEE)) = some p)
    (hev : db.events.find? (fun ev => ev.id == eventId) = some event)
    (hact : eventActive event now = true)
    (htm : db.teams.find? (fun x => x.id == t && x.eventId == eventId) = some tm)
    (huniq : flatUniq db.rewards)
    (hnocat : db.catRewards.filter (catKey eventId t p.userId) = [])
    (hpos : 0 < a)
    (hcap : capFailure event p.eventGroup a = false)
    (hfit : othersFlat db eventId p.userId t + othersCat db eventId p.userId t + a ≤
      p.virtualReward) :
    ∃ resp1 db1 resp2 db2 resp3 db3,
      giveVr db userId eventId ⟨t, some (a : ℚ), none⟩ now = (resp1, db1) ∧
      resetVr db1 userId eventId t now = (resp2, db2) ∧
      giveVr db2 userId eventId ⟨t, some (a : ℚ), none⟩ now = (resp3, db3) ∧
      resp1.status = 200 ∧
      resp1.totalUsed = some (othersFlat db eventId p.userId t +
        othersCat db eventId p.userId t + a) ∧
      resp2.totalUsed = some (othersFlat db eventId p.userId t +
        othersCat db eventId p.userId t) ∧
      resp3 = resp1 ∧
      db3.rewards.filter (rewardKey eventId t p.userId) =
        db1.rewards.filter (rewardKey eventId t p.userId) ∧
      db3.catRewards = db1.catRewards := by
  have hfa : (max 0 ⌊((a : ℤ) : ℚ)⌋) = a := by
    rw [Int.floor_intCast]
    exact max_eq_right (le_of_lt hpos)
  have htc : thisTeamCat db eventId p.userId t = 0 := by
    show sumCatRewards (db.catRewards.filter (fun r => r.eventId == eventId &&
      r.teamId == t && r.giverId == p.userId)) = 0
    have hnil : db.catRewards.filter (fun r => r.eventId == eventId &&
        r.teamId == t && r.giverId == p.userId) = [] := hnocat
    rw [hnil]
    rfl
  have hCdb : usedCat db eventId p.userId = othersCat db eventId p.userId t := by
    rw [usedCat_split db eventId p.userId t, htc]
    omega
  have hkeyno : ∀ r : TeamReward, rewardKey eventId t p.userId r = true →
      (r.eventId == eventId && r.giverId == p.userId && !(r.teamId == t)) = false := by
    intro r hk
    rcases (rewardKey_iff _ _ _ r).mp hk with ⟨h1, h2, h3⟩
    have hteq : (r.teamId == t) = true := by simp [h2]
    simp [hteq]
  have hW : (flatWrite db.rewards eventId t p.userId a).filter
      (rewardKey eventId t p.userId) = [TeamReward.mk eventId t p.userId a] := by
    rw [flatWrite_filter_key db.rewards eventId t p.userId a (le_of_lt hpos) huniq]
    exact if_neg (by omega)
  -- first give
  have h1 := giveVr_flat_ok_eq db userId eventId t now ((a : ℚ)) p event tm h0 hf hev hact htm
    (by rw [hfa]; exact hcap)
    (by rw [hfa, htc]; omega)
  rw [hfa] at h1
  set D1 : DB := { db with rewards := (flatWrite db.rewards eventId t p.userId a) } with hD1
  have hU1 : usedFlat D1 eventId p.userId = othersFlat db eventId p.userId t + a := by
    rw [usedFlat_split D1 eventId p.userId t]
    have e3 : D1.rewards.filter (rewardKey eventId t p.userId) =
        [TeamReward.mk eventId t p.userId a] := hW
    have e4 : othersFlat D1 eventId p.userId t = othersFlat db eventId p.userId t := by
      show sumRewards ((flatWrite db.rewards eventId t p.userId a).filter
        (fun r => r.eventId == eventId && r.giverId == p.userId && !(r.teamId == t))) =
        othersFlat db eventId p.userId t
      rw [flatWrite_filter_disjoint db.rewards eventId t p.userId a _ hkeyno
        (fun r x => rfl)]
      rfl
    rw [e3, e4]
    simp [sumRewards]
    omega
  have hC1 : usedCat D1 eventId p.userId = othersCat db eventId p.userId t := hCdb
  -- reset
  have hnz : ¬(sumRewards (D1.rewards.filter (rewardKey eventId t p.userId)) +
      sumCatRewards (D1.catRewards.filter (catKey eventId t p.userId)) = 0) := by
    show ¬(sumRewards ((flatWrite db.rewards eventId t p.userId a).filter
        (rewardKey eventId t p.userId)) +
      sumCatRewards (db.catRewards.filter (catKey eventId t p.userId)) = 0)
    rw [hW, hnocat]
    simp [sumRewards, sumCatRewards]
    omega
  have h2 := resetVr_refund_eq D1 userId eventId t now p event h0 hf hev hact hnz
  have e1 : D1.rewards.filter (fun r => !(rewardKey eventId t p.userId r)) =
      db.rewards.filter (fun r => !(rewardKey eventId t p.userId r)) := by
    show (flatWrite db.rewards eventId t p.userId a).filter
      (fun r => !(rewardKey eventId t p.userId r)) =
      db.rewards.filter (fun r => !(rewardKey eventId t p.userId r))
    exact flatWrite_filter_disjoint db.rewards eventId t p.userId a _
      (fun r hk => by rw [hk]; rfl) (fun r x => rfl)
  have e2 : D1.catRewards.filter (fun c => !(catKey eventId t p.userId c)) =
      db.catRewards := by
    show db.catRewards.filter (fun c => !(catKey eventId t p.userId c)) = db.catRewards
    exact filter_neg_of_filter_nil db.catRewards _ hnocat
  rw [e1, e2] at h2
  set D2 : DB := { D1 with
    rewards := db.rewards.filter (fun r => !(rewardKey eventId t p.userId r)),
    catRewards := db.catRewards } with hD2
  have huniq2 : flatUniq D2.rewards := flatUniq_filter db.rewards huniq _
  have hU2 : usedFlat D2 eventId p.userId = othersFlat db eventId p.userId t := by
    show sumRewards ((db.rewards.filter (fun r => !(rewardKey eventId t p.userId r))).filter
      (fun r => r.eventId == eventId && r.giverId == p.userId)) =
      othersFlat db eventId p.userId t
    rw [sum_negkey_giver]
    rfl
  have hC2 : usedCat D2 eventId p.userId = othersCat db eventId p.userId t := hCdb
  have hOF2 : othersFlat D2 eventId p.userId t = othersFlat db eventId p.userId t := by
    show sumRewards ((db.rewards.filter (fun r => !(rewardKey eventId t p.userId r))).filter
      (fun r => r.eventId == eventId && r.giverId == p.userId && !(r.teamId == t))) =
      othersFlat db eventId p.userId t
    exact sum_negkey_others db.rewards eventId t p.userId
  have hTC2 : thisTeamCat D2 eventId p.userId t = 0 := htc
  have hOC2 : othersCat D2 eventId p.userId t = othersCat db eventId p.userId t := rfl
  -- second give
  have h3 := giveVr_flat_ok_eq D2 userId eventId t now ((a : ℚ)) p event tm h0 hf hev hact htm
    (by rw [hfa]; exact hcap)
    (by rw [hfa, hOF2, hTC2, hOC2]; omega)
  rw [hfa] at h3
  set D3 : DB := { D2 with rewards := (flatWrite D2.rewards eventId t p.userId a) } with hD3
  have e3k : D3.rewards.filter (rewardKey eventId t p.userId) =
      [TeamReward.mk eventId t p.userId a] := by
    show (flatWrite D2.rewards eventId t p.userId a).filter (rewardKey eventId t p.userId) =
      [TeamReward.mk eventId t p.userId a]
    rw [flatWrite_filter_key D2.rewards eventId t p.userId a (le_of_lt hpos) huniq2]
    exact if_neg (by omega)
  have hU3 : usedFlat D3 eventId p.userId = othersFlat db eventId p.userId t + a := by
    rw [usedFlat_split D3 eventId p.userId t, e3k]
    have e4 : othersFlat D3 eventId p.userId t = othersFlat db eventId p.userId t := by
      show sumRewards ((flatWrite D2.rewards eventId t p.userId a).filter
        (fun r => r.eventId == eventId && r.giverId == p.userId && !(r.teamId == t))) =
        othersFlat db eventId p.userId t
      rw [flatWrite_filter_disjoint D2.rewards eventId t p.userId a _ hkeyno
        (fun r x => rfl)]
      exact sum_negkey_others db.rewards eventId t p.userId
    rw [e4]
    simp [sumRewards]
    omega
  have hC3 : usedCat D3 eventId p.userId = othersCat db eventId p.userId t := hCdb
  refine ⟨_, D1, _, D2, _, D3, h1, h2, h3, rfl, ?_, ?_, ?_, ?_, rfl⟩
  · exact congrArg some (by rw [hU1, hC1]; ring)
  · exact congrArg some (by rw [hU2, hC2])
  · simp only [VrResp.mk.injEq, Option.some.injEq]
    refine ⟨trivial, trivial, trivial, ?_, trivial⟩
    rw [hU1, hC1, hU3, hC3]
  · rw [e3k, hW]

/-- C8 witness: the round trip applied to the base state with a flat
give of 60 to team tA. -/
theorem give_reset_give_round_trip_witness :
    flatUniq dbBase.rewards ∧
    dbBase.catRewards.filter (catKey "e" "tA" "u") = [] ∧
    (∃ resp1 db1 resp2 db2 resp3 db3,
      giveVr dbBase "u" "e" ⟨"tA", some (((60 : ℤ)) : ℚ), none⟩ 1 = (resp1, db1) ∧
      resetVr db1 "u" "e" "tA" 1 = (resp2, db2) ∧
      giveVr db2 "u" "e" ⟨"tA", some (((60 : ℤ)) : ℚ), none⟩ 1 = (resp3, db3) ∧
      resp1.status = 200 ∧
      resp1.totalUsed = some (othersFlat dbBase "e" "u" "tA" +
        othersCat dbBase "e" "u" "tA" + 60) ∧
      resp2.totalUsed = some (othersFlat dbBase "e" "u" "tA" +
        othersCat dbBase "e" "u" "tA") ∧
      resp3 = resp1 ∧
      db3.rewards.filter (rewardKey "e" "tA" "u") =
        db1.rewards.filter (rewardKey "e" "tA" "u") ∧
      db3.catRewards = db1.catRewards) := by
  refine ⟨by decide, by decide, ?_⟩
  exact give_reset_give_round_trip dbBase "u" "e" "tA" 1 60 guestBase evBase ⟨"tA", "e"⟩
    (by decide) (by decide) (by decide) (by decide) (by decide) (by decide) (by decide)
    (by decide) (by decide) (by decide)

/-- C8 counterexample: with a pre-existing categorized row of 10 on the
team, give 20 / reset / give 20 does not reproduce the first totals:
the first give reports totalUsed 30 (20 flat + 10 categorized kept),
the reset deletes both, and the second give reports totalUsed 20 with
the categorized row gone. -/
theorem give_reset_give_counterexample :
    (giveVr dbWithCat "u" "e" (GiveVrBody.mk "tA" (some 20) none) 1).1.status = 200 ∧
    (giveVr dbWithCat "u" "e" (GiveVrBody.mk "tA" (some 20) none) 1).1.totalUsed =
      some 30 ∧
    (giveVr dbWithCat "u" "e" (GiveVrBody.mk "tA" (some 20) none) 1).2.catRewards =
      [⟨"e", "tA", "u", "c1", 10⟩] ∧
    (giveVr (resetVr (giveVr dbWithCat "u" "e" (GiveVrBody.mk "tA" (some 20) none) 1).2
        "u" "e" "tA" 1).2 "u" "e" (GiveVrBody.mk "tA" (some 20) none) 1).1.totalUsed =
      some 20 ∧
    (giveVr (resetVr (giveVr dbWithCat "u" "e" (GiveVrBody.mk "tA" (some 20) none) 1).2
        "u" "e" "tA" 1).2 "u" "e" (GiveVrBody.mk "tA" (some 20) none) 1).2.catRewards =
      [] := by
  refine ⟨by decide, by decide, by decide, by decide, by decide⟩

/-! ## Vote exclusivity (claims C3 and C4) -/

theorem votesUniq_filter (l : List SpecialRewardVote) (p : SpecialRewardVote → Bool)
    (h : votesUniq l) : votesUniq (l.filter p) :=
  h.sublist (List.filter_sublist l)

theorem createVote_uniq (l : List SpecialRewardVote) (v : SpecialRewardVote)
    (l2 : List SpecialRewardVote) (hu : votesUniq l) (h : createVote l v = .ok l2) :
    votesUniq l2 := by
  unfold createVote at h
  split at h
  · cases h
  · rename_i hany
    rcases Except.ok.inj h with rfl
    unfold votesUniq at hu ⊢
    rw [List.pairwise_append]
    refine ⟨hu, List.pairwise_singleton .., ?_⟩
    intro x hx y hy
    rcases List.mem_singleton.mp hy with rfl
    intro hcon
    exact hany (List.any_eq_true.mpr ⟨x, hx, by simp [hcon.1, hcon.2]⟩)

theorem createVotes_uniq (rids : List String) (cid tid : String)
    (l l2 : List SpecialRewardVote) (hu : votesUniq l)
    (h : createVotes l cid tid rids = .ok l2) : votesUniq l2 := by
  induction rids generalizing l with
  | nil =>
    unfold createVotes at h
    rcases Except.ok.inj h with rfl
    exact hu
  | cons r rest ih =>
    unfold createVotes at h
    rcases hc : createVote l (SpecialRewardVote.mk r cid tid) with e | l1
    · rw [hc] at h
      cases h
    · rw [hc] at h
      exact ih l1 (createVote_uniq l _ l1 hu hc) h

/-- The give-special handler either leaves the state untouched or
replaces the votes with the result of a successful `createVotes` run on
a filtered-down vote list. -/
theorem giveSpecial_state (db : DB) (userId eventId projectId : String)
    (rewardIds : List String) (now : Int) (resp : MsgResp) (db2 : DB)
    (h : giveSpecial db userId eventId projectId rewardIds now = (resp, db2)) :
    db2 = db ∨
    ∃ (pr : SpecialRewardVote → Bool) (cid tid : String) (rids : List String)
      (votes2 : List SpecialRewardVote),
      createVotes (db.votes.filter pr) cid tid rids = .ok votes2 ∧
      db2 = { db with votes := votes2 } := by
  unfold giveSpecial at h
  by_cases h0 : eventId = ""
  · rw [if_pos h0] at h
    left
    exact (Prod.mk.injEq .. |>.mp h).2.symm
  · rw [if_neg h0] at h
    rcases hf : db.participants.find? (fun q => q.eventId == eventId && q.userId == userId &&
        q.eventGroup == .COMMITTEE) with _ | p
    · simp only [hf] at h
      left
      exact (Prod.mk.injEq .. |>.mp h).2.symm
    · simp only [hf] at h
      rcases hev : db.events.find? (fun e => e.id == eventId) with _ | event
      · simp only [hev] at h
        left
        exact (Prod.mk.injEq .. |>.mp h).2.symm
      · simp only [hev] at h
        by_cases hact : eventActive event now = true
        · simp only [hact, Bool.not_true, Bool.false_eq_true, reduceIte] at h
          rcases htm : db.teams.find? (fun t => t.id == projectId &&
              t.eventId == eventId) with _ | tm
          · simp only [htm] at h
            left
            exact (Prod.mk.injEq .. |>.mp h).2.symm
          · simp only [htm] at h
            by_cases hlen : (db.specialRewards.filter (fun r => rewardIds.contains r.id &&
                r.eventId == eventId)).length = rewardIds.length
            · rw [if_neg (not_not_intro hlen)] at h
              by_cases hconf : conflictsOf db p.id projectId rewardIds = []
              · rw [if_neg (not_not_intro hconf)] at h
                rcases hcv : createVotes (db.votes.filter
                    (fun v => !(v.committeeId == p.id && v.teamId == projectId &&
                      (toRemoveOf db p.id projectId rewardIds).contains v.rewardId)))
                    p.id projectId (toAddOf db p.id projectId rewardIds) with e | votes2
                · simp only [hcv] at h
                  left
                  exact (Prod.mk.injEq .. |>.mp h).2.symm
                · simp only [hcv] at h
                  right
                  exact ⟨_, p.id, projectId, toAddOf db p.id projectId rewardIds, votes2,
                    hcv, (Prod.mk.injEq .. |>.mp h).2.symm⟩
              · rw [if_pos hconf] at h
                left
                exact (Prod.mk.injEq .. |>.mp h).2.symm
            · rw [if_pos hlen] at h
              left
              exact (Prod.mk.injEq .. |>.mp h).2.symm
        · have hact0 : eventActive event now = false := by simpa using hact
          simp only [hact0, Bool.not_false, reduceIte] at h
          left
          exact (Prod.mk.injEq .. |>.mp h).2.symm

/-- The reset-special handler either leaves the state untouched or
filters the vote list down (stated through a trivial `createVotes` run
so the shape matches `giveSpecial_state`). -/
theorem resetSpecial_state (db : DB) (userId eventId projectId : String) (now : Int)
    (resp : MsgResp) (db2 : DB)
    (h : resetSpecial db userId eventId projectId now = (resp, db2)) :
    db2 = db ∨
    ∃ (pr : SpecialRewardVote → Bool) (cid tid : String) (rids : List String)
      (votes2 : List SpecialRewardVote),
      createVotes (db.votes.filter pr) cid tid rids = .ok votes2 ∧
      db2 = { db with votes := votes2 } := by
  unfold resetSpecial at h
  by_cases h0 : eventId = ""
  · rw [if_pos h0] at h
    left
    exact (Prod.mk.injEq .. |>.mp h).2.symm
  · rw [if_neg h0] at h
    rcases hf : db.participants.find? (fun q => q.eventId == eventId && q.userId == userId &&
        q.eventGroup == .COMMITTEE) with _ | p
    · simp only [hf] at h
      left
      exact (Prod.mk.injEq .. |>.mp h).2.symm
    · simp only [hf] at h
      rcases hev : db.events.find? (fun e => e.id == eventId) with _ | event
      · simp only [hev] at h
        left
        exact (Prod.mk.injEq .. |>.mp h).2.symm
      · simp only [hev] at h
        by_cases hact : eventActive event now = true
        · simp only [hact, Bool.not_true, Bool.false_eq_true, reduceIte] at h
          right
          exact ⟨(fun v => !(v.committeeId == p.id && v.teamId == projectId)),
            p.id, projectId, [], _, rfl, (Prod.mk.injEq .. |>.mp h).2.symm⟩
        · have hact0 : eventActive event now = false := by simpa using hact
          simp only [hact0, Bool.not_false, reduceIte] at h
          left
          exact (Prod.mk.injEq .. |>.mp h).2.symm

/-- The replace variant either leaves the state untouched or replaces
the votes with a successful `createVotes` run on a filtered vote list. -/
theorem giveSpecialReplace_state (db : DB) (userId eventId projectId : String)
    (rewardIds : List String) (resp : MsgResp) (db2 : DB)
    (h : giveSpecialReplace db userId eventId projectId rewardIds = (resp, db2)) :
    db2 = db ∨
    ∃ (pr : SpecialRewardVote → Bool) (cid tid : String) (rids : List String)
      (votes2 : List SpecialRewardVote),
      createVotes (db.votes.filter pr) cid tid rids = .ok votes2 ∧
      db2 = { db with votes := votes2 } := by
  unfold giveSpecialReplace at h
  by_cases h0 : eventId = "" ∨ projectId = ""
  · rw [if_pos h0] at h
    left
    exact (Prod.mk.injEq .. |>.mp h).2.symm
  · rw [if_neg h0] at h
    rcases hf : db.participants.find? (fun q => q.eventId == eventId && q.userId == userId &&
        q.eventGroup == .COMMITTEE) with _ | p
    · simp only [hf] at h
      left
      exact (Prod.mk.injEq .. |>.mp h).2.symm
    · simp only [hf] at h
      rcases htm : db.teams.find? (fun t => t.id == projectId &&
          t.eventId == eventId) with _ | tm
      · simp only [htm] at h
        left
        exact (Prod.mk.injEq .. |>.mp h).2.symm
      · simp only [htm] at h
        by_cases hlen : (db.specialRewards.filter (fun r => rewardIds.contains r.id &&
            r.eventId == eventId)).length = rewardIds.length
        · rw [if_neg (not_not_intro hlen)] at h
          rcases hcv : createVotes (db.votes.filter
              (fun v => !(v.committeeId == p.id && v.teamId == projectId)))
              p.id projectId rewardIds with e | votes2
          · simp only [hcv] at h
            left
            exact (Prod.mk.injEq .. |>.mp h).2.symm
          · simp only [hcv] at h
            right
            exact ⟨_, p.id, projectId, rewardIds, votes2, hcv,
              (Prod.mk.injEq .. |>.mp h).2.symm⟩
        · rw [if_pos hlen] at h
          left
          exact (Prod.mk.injEq .. |>.mp h).2.symm

/-- A committee participant in the base event. -/
def commP : Participant := ⟨"p2", "e", "w", .COMMITTEE, false, none, 100⟩

/-- A state with a committee member, one special reward and one vote
(reward r1 given to team tA). -/
def dbVotes : DB :=
  { dbBase with participants := [guestBase, commP],
                specialRewards := [⟨"r1", "e", "Best"⟩],
                votes := [⟨"r1", "p2", "tA"⟩] }

/-- C3 (confirmed): every vote operation preserves the exclusivity
invariant — at most one `SpecialRewardVote` row per (rewardId,
committeeId), so each such pair maps to at most one teamId.  Deletions
shrink the list; insertions go through `createVote`, which fails on a
duplicate (rewardId, committeeId) pair, aborting the transaction. -/
theorem special_vote_exclusivity (db : DB) (hu : votesUniq db.votes) :
    (∀ userId eventId projectId rewardIds now,
      votesUniq (giveSpecial db userId eventId projectId rewardIds now).2.votes) ∧
    (∀ userId eventId projectId now,
      votesUniq (resetSpecial db userId eventId projectId now).2.votes) ∧
    (∀ userId eventId projectId rewardIds,
      votesUniq (giveSpecialReplace db userId eventId projectId rewardIds).2.votes) := by
  refine ⟨?_, ?_, ?_⟩
  · intro userId eventId projectId rewardIds now
    rcases h : giveSpecial db userId eventId projectId rewardIds now with ⟨resp, db2⟩
    show votesUniq db2.votes
    rcases giveSpecial_state db userId eventId projectId rewardIds now resp db2 h with
      rfl | ⟨pr, cid, tid, rids, votes2, hcv, rfl⟩
    · exact hu
    · exact createVotes_uniq rids cid tid _ votes2 (votesUniq_filter db.votes pr hu) hcv
  · intro userId eventId projectId now
    rcases h : resetSpecial db userId eventId projectId now with ⟨resp, db2⟩
    show votesUniq db2.votes
    rcases resetSpecial_state db userId eventId projectId now resp db2 h with
      rfl | ⟨pr, cid, tid, rids, votes2, hcv, rfl⟩
    · exact hu
    · exact createVotes_uniq rids cid tid _ votes2 (votesUniq_filter db.votes pr hu) hcv
  · intro userId eventId projectId rewardIds
    rcases h : giveSpecialReplace db userId eventId projectId rewardIds with ⟨resp, db2⟩
    show votesUniq db2.votes
    rcases giveSpecialReplace_state db userId eventId projectId rewardIds resp db2 h with
      rfl | ⟨pr, cid, tid, rids, votes2, hcv, rfl⟩
    · exact hu
    · exact createVotes_uniq rids cid tid _ votes2 (votesUniq_filter db.votes pr hu) hcv

/-- C3 witness: applying the preservation theorem at the concrete vote
fixture, for a give-special call moving r1 to team tB. -/
theorem special_vote_exclusivity_witness :
    votesUniq dbVotes.votes ∧
    votesUniq (giveSpecial dbVotes "w" "e" "tB" ["r1"] 1).2.votes :=
  ⟨by decide, (special_vote_exclusivity dbVotes (by decide)).1 "w" "e" "tB" ["r1"] 1⟩

/-- C4 (confirmed): when some requested reward is already voted by the
same committee member for a different team, give-special fails with the
rewards-already-given 400 error listing the conflicting reward names,
and the database — in particular the existing votes for the other
team — is unchanged (the conflict check runs before any delete or
insert). -/
theorem give_special_conflict_rejects (db : DB) (userId eventId projectId : String)
    (rewardIds : List String) (now : Int) (p : Participant) (event : EventRec) (tm : Team)
    (h0 : ¬eventId = "")
    (hf : db.participants.find? (fun q => q.eventId == eventId && q.userId == userId &&
        q.eventGroup == .COMMITTEE) = some p)
    (hev : db.events.find? (fun e => e.id == eventId) = some event)
    (hact : eventActive event now = true)
    (htm : db.teams.find? (fun t => t.id == projectId && t.eventId == eventId) = some tm)
    (hlen : (db.specialRewards.filter (fun r => rewardIds.contains r.id &&
        r.eventId == eventId)).length = rewardIds.length)
    (hconf : conflictsOf db p.id projectId rewardIds ≠ []) :
    giveSpecial db userId eventId projectId rewardIds now =
      (MsgResp.mk ("Rewards already given to other teams: " ++
        String.intercalate ", " ((conflictsOf db p.id projectId rewardIds).map
          (fun v => rewardNameOf db v.rewardId))) 400, db) := by
  unfold giveSpecial
  rw [if_neg h0]
  simp only [hf, hev, hact, Bool.not_true, Bool.false_eq_true, reduceIte, htm]
  rw [if_neg (not_not_intro hlen), if_pos hconf]

/-- C4 witness: the spec section-8 scenario — r1 is voted for team tA,
setting the votes to \x7br1\x7d for team tB fails with the conflict
message naming the reward, and the state (the tA vote included) is
untouched. -/
theorem give_special_conflict_rejects_witness :
    conflictsOf dbVotes "p2" "tB" ["r1"] ≠ [] ∧
    giveSpecial dbVotes "w" "e" "tB" ["r1"] 1 =
      (MsgResp.mk "Rewards already given to other teams: Best" 400, dbVotes) := by
  refine ⟨by decide, ?_⟩
  have h := give_special_conflict_rejects dbVotes "w" "e" "tB" ["r1"] 1 commP evBase
    ⟨"tB", "e"⟩ (by decide) (by decide) (by decide) (by decide) (by decide) (by decide)
    (by decide)
  rw [h]
  decide

/-! ## Team cascades (claims C5, C6, C7) -/

theorem updateFirstParticipant_mem (l : List Participant) (pid : String)
    (f : Participant → Participant) (q : Participant)
    (hq : q ∈ updateFirstParticipant l pid f) :
    q ∈ l ∨ ∃ q0, q0 ∈ l ∧ q = f q0 := by
  induction l with
  | nil =>
    simp only [updateFirstParticipant] at hq
    cases hq
  | cons r rs ih =>
    unfold updateFirstParticipant at hq
    by_cases hr : (r.id == pid) = true
    · rw [if_pos hr] at hq
      rcases List.mem_cons.mp hq with heq | hq2
      · exact Or.inr ⟨r, List.mem_cons_self .., heq⟩
      · exact Or.inl (List.mem_cons_of_mem r hq2)
    · rw [if_neg hr] at hq
      rcases List.mem_cons.mp hq with heq | hq2
      · exact Or.inl (heq ▸ List.mem_cons_self ..)
      · rcases ih hq2 with h1 | ⟨q0, hq0, heq⟩
        · exact Or.inl (List.mem_cons_of_mem r h1)
        · exact Or.inr ⟨q0, List.mem_cons_of_mem r hq0, heq⟩

theorem updateFirstParticipant_isLeader_map (l : List Participant) (pid : String)
    (f : Participant → Participant) (hf : ∀ q, (f q).isLeader = q.isLeader) :
    (updateFirstParticipant l pid f).map Participant.isLeader =
      l.map Participant.isLeader := by
  induction l with
  | nil => rfl
  | cons r rs ih =>
    unfold updateFirstParticipant
    by_cases hr : (r.id == pid) = true
    · rw [if_pos hr]
      simp [hf r]
    · rw [if_neg hr]
      simp [ih]

/-- An organizer leader in the base event. -/
def orgP : Participant := ⟨"p5", "e", "o", .ORGANIZER, true, none, 0⟩

/-- A presenter who leads team tA. -/
def leadP : Participant := ⟨"p4", "e", "x", .PRESENTER, true, some "tA", 0⟩

/-- A non-leader presenter member of team tA. -/
def memP : Participant := ⟨"p3", "e", "m", .PRESENTER, false, some "tA", 0⟩

/-- A state with an organizer, a team-tA leader and a team-tA member. -/
def dbTeam : DB := { dbBase with participants := [orgP, leadP, memP] }

/-- A state where the only member of team tA is a non-leader. -/
def dbSolo : DB := { dbBase with participants := [memP] }

/-- A state with ledger rows given by the guest: a flat reward, a
categorized reward and a special vote. -/
def dbLedger : DB :=
  { dbBase with participants := [orgP, guestBase],
                rewards := [⟨"e", "tA", "u", 30⟩],
                catRewards := [⟨"e", "tA", "u", "c1", 10⟩],
                votes := [⟨"r1", "p1", "tA"⟩] }

/-- C5 (corrected): when a team leader's role is changed away from
PRESENTER through the participant-update route, the cascade clears
`teamId` (and `isLeader`) for every member of the team and deletes the
Team row.  The original claim said this also happens on explicit
removal and self-departure; but the participant DELETE route runs no
team cascade at all, and removing the leader through the member-removal
route is rejected with 400, so the cascade only fires on the
role-change path (and team dissolve). -/
theorem leader_role_change_cascade (db : DB) (actorUserId eventId pid : String)
    (body : UpdateBody) (organizer existing : Participant) (t : String) (g : EventGroup)
    (horg : db.participants.find? (fun q => q.eventId == eventId &&
        q.userId == actorUserId && q.eventGroup == .ORGANIZER) = some organizer)
    (horgl : organizer.isLeader = true)
    (hex : db.participants.find? (fun q => q.id == pid && q.eventId == eventId) =
        some existing)
    (hpg : existing.eventGroup = .PRESENTER)
    (hlead : existing.isLeader = true)
    (ht : existing.teamId = some t)
    (hbody : body.eventGroup = some g)
    (hg : g ≠ .PRESENTER) :
    (updateParticipant db actorUserId eventId pid body).1.status = 200 ∧
    (updateParticipant db actorUserId eventId pid body).2.teams =
      db.teams.filter (fun tm => !(tm.id == t)) ∧
    ∀ q ∈ (updateParticipant db actorUserId eventId pid body).2.participants,
      ¬(q.teamId = some t) := by
  have hne : g ≠ existing.eventGroup := by rw [hpg]; exact hg
  unfold updateParticipant
  simp only [horg, hex, hbody]
  rw [if_pos (decide_eq_true hne)]
  simp only [hpg, show (EventGroup.PRESENTER == EventGroup.ORGANIZER) = false from rfl,
    Bool.false_eq_true, reduceIte, horgl, Bool.not_true, Bool.false_and, ht,
    show (EventGroup.PRESENTER == EventGroup.PRESENTER) = true from rfl,
    Bool.true_and, decide_eq_true hg, hlead]
  refine ⟨rfl, rfl, ?_⟩
  intro q hq
  intro hcon
  rcases updateFirstParticipant_mem _ pid _ q hq with hql | ⟨q0, hq0, heq⟩
  · rcases List.mem_map.mp hql with ⟨q1, _, rfl⟩
    by_cases hq1 : (q1.teamId == some t) = true
    · simp only [hq1, reduceIte] at hcon
      cases hcon
    · have hq1f : (q1.teamId == some t) = false := by simpa using hq1
      simp only [hq1f, Bool.false_eq_true, reduceIte] at hcon
      rw [hcon] at hq1f
      simp at hq1f
  · rw [heq] at hcon
    simp [applyPatch] at hcon

/-- C5 witness: the organizer changes the team-tA leader's role to
GUEST; the call succeeds, team tA is gone and nobody points at it. -/
theorem leader_role_change_cascade_witness :
    leadP.isLeader = true ∧
    ((updateParticipant dbTeam "o" "e" "p4"
        (UpdateBody.mk (some .GUEST) none none none)).1.status = 200 ∧
     (updateParticipant dbTeam "o" "e" "p4"
        (UpdateBody.mk (some .GUEST) none none none)).2.teams =
       dbTeam.teams.filter (fun tm => !(tm.id == "tA")) ∧
     ∀ q ∈ (updateParticipant dbTeam "o" "e" "p4"
        (UpdateBody.mk (some .GUEST) none none none)).2.participants,
       ¬(q.teamId = some "tA")) :=
  ⟨rfl, leader_role_change_cascade dbTeam "o" "e" "p4"
    (UpdateBody.mk (some .GUEST) none none none) orgP leadP "tA" .GUEST
    (by decide) (by decide) (by decide) (by decide) (by decide) (by decide) rfl
    (by decide)⟩

/-- C5 counterexample: deleting the team-tA leader through the
participant DELETE route succeeds but runs no cascade — the Team row
survives and the remaining member still points at tA. -/
theorem leader_delete_no_cascade_counterexample :
    (deleteParticipant dbTeam "o" "e" "p4").1.status = 200 ∧
    (deleteParticipant dbTeam "o" "e" "p4").2.teams = [⟨"tA", "e"⟩, ⟨"tB", "e"⟩] ∧
    (deleteParticipant dbTeam "o" "e" "p4").2.participants = [orgP, memP] ∧
    memP.teamId = some "tA" := by
  refine ⟨by decide, by decide, by decide, by decide⟩

/-- C6 (corrected): a role change (new eventGroup differing from the
current one) unconditionally deletes the participant's flat `TeamReward`
rows given in the event and their `SpecialRewardVote` rows — but it does
NOT touch the `TeamRewardCategory` table, contrary to the claim: the
categorized rewards given by the participant survive the purge. -/
theorem role_change_purge (db : DB) (actorUserId eventId pid : String)
    (body : UpdateBody) (organizer existing : Participant) (g : EventGroup)
    (horg : db.participants.find? (fun q => q.eventId == eventId &&
        q.userId == actorUserId && q.eventGroup == .ORGANIZER) = some organizer)
    (hex : db.participants.find? (fun q => q.id == pid && q.eventId == eventId) =
        some existing)
    (hbody : body.eventGroup = some g)
    (hne : g ≠ existing.eventGroup) :
    (updateParticipant db actorUserId eventId pid body).2.rewards =
      db.rewards.filter (fun r => !(r.eventId == eventId &&
        r.giverId == existing.userId)) ∧
    (updateParticipant db actorUserId eventId pid body).2.votes =
      db.votes.filter (fun v => !(v.committeeId == pid)) ∧
    (updateParticipant db actorUserId eventId pid body).2.catRewards =
      db.catRewards := by
  unfold updateParticipant
  simp only [horg, hex, hbody]
  rw [if_pos (decide_eq_true hne)]
  repeat' split
  all_goals exact ⟨rfl, rfl, rfl⟩

/-- C6 witness: changing the guest (who gave a flat reward, a
categorized reward and holds a vote) to COMMITTEE purges the flat
reward and the vote while the categorized row stays. -/
theorem role_change_purge_witness :
    (UpdateBody.mk (some .COMMITTEE) none none none).eventGroup = some .COMMITTEE ∧
    ((updateParticipant dbLedger "o" "e" "p1"
        (UpdateBody.mk (some .COMMITTEE) none none none)).2.rewards =
      dbLedger.rewards.filter (fun r => !(r.eventId == "e" &&
        r.giverId == guestBase.userId)) ∧
     (updateParticipant dbLedger "o" "e" "p1"
        (UpdateBody.mk (some .COMMITTEE) none none none)).2.votes =
      dbLedger.votes.filter (fun v => !(v.committeeId == "p1")) ∧
     (updateParticipant dbLedger "o" "e" "p1"
        (UpdateBody.mk (some .COMMITTEE) none none none)).2.catRewards =
      dbLedger.catRewards) :=
  ⟨rfl, role_change_purge dbLedger "o" "e" "p1"
    (UpdateBody.mk (some .COMMITTEE) none none none) orgP guestBase .COMMITTEE
    (by decide) (by decide) rfl (by decide)⟩

/-- C6 counterexample: after the purge fires (flat reward and vote are
gone), the categorized reward row given by the participant is still
there — the claimed `TeamRewardCategory` deletion does not happen. -/
theorem role_change_purge_counterexample :
    (updateParticipant dbLedger "o" "e" "p1"
        (UpdateBody.mk (some .COMMITTEE) none none none)).2.rewards = [] ∧
    (updateParticipant dbLedger "o" "e" "p1"
        (UpdateBody.mk (some .COMMITTEE) none none none)).2.votes = [] ∧
    (updateParticipant dbLedger "o" "e" "p1"
        (UpdateBody.mk (some .COMMITTEE) none none none)).2.catRewards =
      [⟨"e", "tA", "u", "c1", 10⟩] := by
  refine ⟨by decide, by decide, by decide⟩

/-- C7 (corrected): the member-removal route only ever clears the
departing member's `teamId` — in every case the Team table is unchanged
(an emptied team is NOT deleted) and no `isLeader` flag changes (nobody
is promoted).  Both halves of the claimed behaviour are absent from the
handler. -/
theorem member_removal_no_team_cascade (db : DB)
    (actorUserId eventId teamId targetUserId : String) :
    (removeMember db actorUserId eventId teamId targetUserId).2.teams = db.teams ∧
    (removeMember db actorUserId eventId teamId targetUserId).2.participants.map
      Participant.isLeader = db.participants.map Participant.isLeader := by
  unfold removeMember
  repeat' split
  all_goals refine ⟨rfl, ?_⟩
  all_goals try rfl
  exact updateFirstParticipant_isLeader_map _ _ _ (fun q => rfl)

/-- C7 counterexample: the sole (non-leader) member of team tA removes
themselves; the call succeeds and nobody is on the team any more, yet
the now-empty Team row is still present. -/
theorem member_removal_empty_team_counterexample :
    (removeMember dbSolo "m" "e" "tA" "m").1.status = 200 ∧
    (removeMember dbSolo "m" "e" "tA" "m").2.participants.filter
      (fun q => q.teamId == some "tA") = [] ∧
    (removeMember dbSolo "m" "e" "tA" "m").2.teams = [⟨"tA", "e"⟩, ⟨"tB", "e"⟩] := by
  refine ⟨by decide, by decide, by decide⟩

end GWalk
